import Mathlib

/-!
Verification of the rustcraft voxel core: a shallow embedding of the block
registry (src/block.rs), the chunked world store (src/world.rs), the DDA
raycast (src/raycast.rs) and the player physics controller (src/physics.rs),
together with theorems about the documented behaviour of these components.

Modelling conventions:
* Rust `i32` arithmetic is embedded as `Int`; the truncating `/` and `%` of
  Rust are `Int.tdiv` / `Int.tmod` (all operations proved about stay far from
  the `i32` overflow boundary, so no wrap-around modelling is needed).
* Rust `f32` values are embedded as exact rationals `ℚ`; decimal float
  literals of the source are written as the exact rationals they denote
  (`0.25 = 1/4`, `1e-4 = 1/10000`, …) and `f32::EPSILON` is exactly `2⁻²³`.
  `f32::INFINITY` (used by the raycast for axes that never advance) is `⊤`
  in `WithTop ℚ`.  The float square root used by vector normalisation is an
  abstract parameter `S : ℚ → ℚ`; no theorem below depends on its values.
* The terrain height function (`terrain_height` in src/world.rs computes it
  with `f32` sine/cosine) is an abstract parameter `H : Int → Int → Int`;
  every theorem below is proved for all such height functions, which is
  strictly stronger than for the one concrete function.
* The dense `Vec<BlockId>` of a chunk is embedded as its access map
  `Nat → BlockId` (index ↦ stored id), and the `HashMap<ChunkCoord, Chunk>`
  of the world as its lookup map `ChunkCoord → Option Chunk`.
* While loops are embedded as fuel recursion with fuel that provably
  dominates the source's own bounds (the raycast carries its explicit
  `max_steps = 512` bound; the collision bisection halves a step of
  magnitude ≤ 1/4 until it drops below 1/10000, so 64 units of fuel strictly
  dominate its iteration count).
-/

/-! ## Block registry (src/block.rs) -/

/-- `pub type BlockId = u8;` — ids actually used are 0..6. -/
abbrev BlockId := Nat

def BLOCK_AIR : BlockId := 0
def BLOCK_GRASS : BlockId := 1
def BLOCK_DIRT : BlockId := 2
def BLOCK_STONE : BlockId := 3
def BLOCK_LAMP : BlockId := 4
def BLOCK_GLASS : BlockId := 5
def BLOCK_METAL : BlockId := 6

/-- Integer 3-vector (glam `IVec3`). -/
structure IVec3 where
  x : Int
  y : Int
  z : Int
deriving DecidableEq

instance : Add IVec3 := ⟨fun a b => ⟨a.x + b.x, a.y + b.y, a.z + b.z⟩⟩


/-- Atlas tile id (src/texture.rs `TileId`). -/
structure TileId where
  x : Nat
  y : Nat
deriving DecidableEq

/-- `enum FaceDirection` of src/block.rs. -/
inductive FaceDirection where
  | NegX | PosX | NegY | PosY | NegZ | PosZ
deriving DecidableEq

/-- `FaceDirection::normal`. -/
def FaceDirection.normal : FaceDirection → IVec3
  | .NegX => ⟨-1, 0, 0⟩
  | .PosX => ⟨1, 0, 0⟩
  | .NegY => ⟨0, -1, 0⟩
  | .PosY => ⟨0, 1, 0⟩
  | .NegZ => ⟨0, 0, -1⟩
  | .PosZ => ⟨0, 0, 1⟩

/-- `struct BlockDefinition` of src/block.rs (float fields as exact ℚ). -/
structure BlockDefinition where
  solid : Bool
  luminance : ℚ
  specular : ℚ
  diffuse : ℚ
  roughness : ℚ
  metallic : ℚ
  transmission : ℚ
  ior : ℚ
  transmission_tint : ℚ
  face_tiles : List TileId
deriving DecidableEq

def TILE_GRASS_TOP : TileId := ⟨0, 0⟩
def TILE_GRASS_SIDE : TileId := ⟨1, 0⟩
def TILE_DIRT : TileId := ⟨2, 0⟩
def TILE_STONE : TileId := ⟨3, 0⟩
def TILE_LAMP : TileId := ⟨4, 0⟩
def TILE_AIR : TileId := ⟨0, 0⟩
def TILE_GLASS : TileId := ⟨5, 0⟩
def TILE_METAL : TileId := ⟨6, 0⟩

/-- Entry 0 of `BLOCK_DEFINITIONS` (Air). -/
def airDefinition : BlockDefinition :=
  { solid := false, luminance := 0, specular := 0, diffuse := 0, roughness := 0
    metallic := 0, transmission := 0, ior := 1, transmission_tint := 0
    face_tiles := List.replicate 6 TILE_AIR }

/-- `const BLOCK_DEFINITIONS: [BlockDefinition; 7]`, in source order (the
source lists the definition commented `Metal` at index 5 and the one
commented `Glass` at index 6). -/
def BLOCK_DEFINITIONS : List BlockDefinition :=
  [ airDefinition,
    -- Grass
    { solid := true, luminance := 0, specular := 1/25, diffuse := 17/20
      roughness := 7/10, metallic := 0, transmission := 0, ior := 1
      transmission_tint := 0
      face_tiles := [TILE_GRASS_SIDE, TILE_GRASS_SIDE, TILE_DIRT,
                     TILE_GRASS_TOP, TILE_GRASS_SIDE, TILE_GRASS_SIDE] },
    -- Dirt
    { solid := true, luminance := 0, specular := 1/40, diffuse := 3/4
      roughness := 17/20, metallic := 0, transmission := 0, ior := 1
      transmission_tint := 0, face_tiles := List.replicate 6 TILE_DIRT },
    -- Stone
    { solid := true, luminance := 0, specular := 3/25, diffuse := 3/5
      roughness := 9/20, metallic := 0, transmission := 0, ior := 1
      transmission_tint := 0, face_tiles := List.replicate 6 TILE_STONE },
    -- Lamp
    { solid := true, luminance := 8, specular := 2/25, diffuse := 9/10
      roughness := 3/5, metallic := 0, transmission := 0, ior := 6/5
      transmission_tint := 0, face_tiles := List.replicate 6 TILE_LAMP },
    -- Metal
    { solid := true, luminance := 0, specular := 9/10, diffuse := 3/20
      roughness := 1/5, metallic := 1, transmission := 0, ior := 1
      transmission_tint := 0, face_tiles := List.replicate 6 TILE_METAL },
    -- Glass
    { solid := true, luminance := 0, specular := 3/50, diffuse := 1/20
      roughness := 1/20, metallic := 0, transmission := 19/20, ior := 29/20
      transmission_tint := 17/20, face_tiles := List.replicate 6 TILE_GLASS } ]

/-- `enum BlockKind` of src/block.rs. -/
inductive BlockKind where
  | Air | Grass | Dirt | Stone | Lamp | Metal | Glass
deriving DecidableEq

/-- `BlockKind::id`. -/
def BlockKind.id : BlockKind → BlockId
  | .Air => BLOCK_AIR
  | .Grass => BLOCK_GRASS
  | .Dirt => BLOCK_DIRT
  | .Stone => BLOCK_STONE
  | .Lamp => BLOCK_LAMP
  | .Metal => BLOCK_METAL
  | .Glass => BLOCK_GLASS

/-- `BlockKind::from_id` — total over all ids, unknown ids map to Air. -/
def BlockKind.from_id (id : BlockId) : BlockKind :=
  if id = BLOCK_GRASS then .Grass
  else if id = BLOCK_DIRT then .Dirt
  else if id = BLOCK_STONE then .Stone
  else if id = BLOCK_LAMP then .Lamp
  else if id = BLOCK_METAL then .Metal
  else if id = BLOCK_GLASS then .Glass
  else .Air

/-- `BlockKind::definition` — `&BLOCK_DEFINITIONS[self.id() as usize]`.
The modelled total lookup falls back to `airDefinition`; the in-bounds fact
`BLOCK_DEFINITIONS.get? kind.id = some _` is proved below, so the fallback
is never taken (matching the panic-free array index of the source). -/
def BlockKind.definition (k : BlockKind) : BlockDefinition :=
  (BLOCK_DEFINITIONS.get? k.id).getD airDefinition

/-- `BlockKind::is_solid`. -/
def BlockKind.is_solid (k : BlockKind) : Bool :=
  k.definition.solid

/-- `pub fn block_definition(id: BlockId) -> &'static BlockDefinition`. -/
def block_definition (id : BlockId) : BlockDefinition :=
  (BlockKind.from_id id).definition

/-! ## Floor division helpers (src/world.rs lines 291-306) -/

/-- `div_floor` of src/world.rs: truncating division (`Int.tdiv` = Rust `/`)
corrected to floor division. -/
def div_floor (a b : Int) : Int :=
  let q := a.tdiv b
  let r := a.tmod b
  if (0 < r ∧ b < 0) ∨ (r < 0 ∧ 0 < b) then q - 1 else q

/-- `mod_floor` of src/world.rs: truncating remainder (`Int.tmod` = Rust `%`)
corrected to floor modulo. -/
def mod_floor (a b : Int) : Int :=
  let r := a.tmod b
  if (0 < r ∧ b < 0) ∨ (r < 0 ∧ 0 < b) then r + b else r

/-! ## Chunk (src/world.rs lines 10-59) -/

def CHUNK_SIZE : Nat := 16

def CHUNK_VOLUME : Nat := CHUNK_SIZE * CHUNK_SIZE * CHUNK_SIZE

/-- `struct ChunkCoord`. -/
structure ChunkCoord where
  x : Int
  y : Int
  z : Int
deriving DecidableEq

/-- `struct Chunk`: the dense `Vec<BlockId>` (and parallel `Vec<bool>`
visibility mask) of length `CHUNK_VOLUME` are embedded as their access
maps index ↦ value. -/
structure Chunk where
  blocks : Nat → BlockId
  visible_mask : Nat → Bool

/-- `Chunk::new` — all air, nothing visible. -/
def Chunk.new : Chunk := ⟨fun _ => BLOCK_AIR, fun _ => false⟩

/-- `Chunk::index`: `x + CHUNK_SIZE * (z + CHUNK_SIZE * y)`. -/
def Chunk.index (x y z : Nat) : Nat :=
  x + CHUNK_SIZE * (z + CHUNK_SIZE * y)

/-- `Chunk::set`. -/
def Chunk.set (c : Chunk) (x y z : Nat) (b : BlockId) : Chunk :=
  { c with blocks := fun i => if i = Chunk.index x y z then b else c.blocks i }

/-- `Chunk::get`. -/
def Chunk.get (c : Chunk) (x y z : Nat) : BlockId :=
  c.blocks (Chunk.index x y z)

/-- `Chunk::set_visible_mask`. -/
def Chunk.set_visible_mask (c : Chunk) (m : Nat → Bool) : Chunk :=
  { c with visible_mask := m }

/-! ## World store and queries (src/world.rs) -/

/-- `struct World`: the chunk hash map as its lookup function. -/
structure World where
  chunks : ChunkCoord → Option Chunk

/-- `World::new`. -/
def World.new : World := ⟨fun _ => none⟩

/-- `HashMap::insert`. -/
def World.insert (w : World) (c : ChunkCoord) (ch : Chunk) : World :=
  ⟨fun c' => if c' = c then some ch else w.chunks c'⟩

/-- `HashMap::remove`. -/
def World.remove (w : World) (c : ChunkCoord) : World :=
  ⟨fun c' => if c' = c then none else w.chunks c'⟩

/-- `World::chunk`. -/
def World.chunk (w : World) (c : ChunkCoord) : Option Chunk := w.chunks c

/-- `World::block_at` (src/world.rs lines 92-106): floor-div/floor-mod the
world coordinates into (chunk coordinate, local offset); absent chunk ⇒ air.
The `as usize` cast of the non-negative `mod_floor` results is `Int.toNat`. -/
def World.block_at (w : World) (world_x world_y world_z : Int) : BlockId :=
  let chunk_coord : ChunkCoord :=
    ⟨div_floor world_x (CHUNK_SIZE : Int),
     div_floor world_y (CHUNK_SIZE : Int),
     div_floor world_z (CHUNK_SIZE : Int)⟩
  let local_x := (mod_floor world_x (CHUNK_SIZE : Int)).toNat
  let local_y := (mod_floor world_y (CHUNK_SIZE : Int)).toNat
  let local_z := (mod_floor world_z (CHUNK_SIZE : Int)).toNat
  match w.chunk chunk_coord with
  | some chunk => chunk.get local_x local_y local_z
  | none => BLOCK_AIR

/-- `chunk_min_corner`. -/
def chunk_min_corner (c : ChunkCoord) : IVec3 :=
  ⟨c.x * (CHUNK_SIZE : Int), c.y * (CHUNK_SIZE : Int), c.z * (CHUNK_SIZE : Int)⟩

/-- `chunk_coord_from_block`. -/
def chunk_coord_from_block (p : IVec3) : ChunkCoord :=
  ⟨div_floor p.x (CHUNK_SIZE : Int),
   div_floor p.y (CHUNK_SIZE : Int),
   div_floor p.z (CHUNK_SIZE : Int)⟩

/-! ## Chunk generation (src/world.rs lines 239-289)

The source iterates `for y in 0..CHUNK_SIZE { for z { for x { … } } }` and
conditionally `chunk.set`s each cell; the loop nest is embedded as a fold
over the same cell sequence. -/

/-- The `(x, y, z)` cell triples in source loop order (y outer, z, x inner). -/
def cellCoords : List (Nat × Nat × Nat) :=
  (List.range CHUNK_SIZE).flatMap fun y =>
    (List.range CHUNK_SIZE).flatMap fun z =>
      (List.range CHUNK_SIZE).map fun x => (x, y, z)

/-- Loop body of `generate_chunk`'s terrain fill, for one cell.
`H` is the terrain height function (see the module comment). -/
def generateFill (H : Int → Int → Int) (coord : ChunkCoord)
    (chunk : Chunk) (t : Nat × Nat × Nat) : Chunk :=
  let x := t.1
  let y := t.2.1
  let z := t.2.2
  let world_y : Int := coord.y * (CHUNK_SIZE : Int) + y
  let world_z : Int := coord.z * (CHUNK_SIZE : Int) + z
  let world_x : Int := coord.x * (CHUNK_SIZE : Int) + x
  let height := H world_x world_z
  if world_y ≤ height then
    let kind : BlockKind :=
      if world_y = height then .Grass
      else if height - 3 ≤ world_y then .Dirt
      else .Stone
    chunk.set x y z kind.id
  else chunk

/-- `generate_chunk` (src/world.rs lines 239-280): terrain fill plus, for
chunk (0,0,0) only, a single Lamp one cell above the surface at the chunk's
horizontal center when that cell lies in the chunk's vertical range. -/
def generate_chunk (H : Int → Int → Int) (coord : ChunkCoord) : Chunk :=
  let base_y : Int := coord.y * (CHUNK_SIZE : Int)
  let chunk := cellCoords.foldl (generateFill H coord) Chunk.new
  if coord = ⟨0, 0, 0⟩ then
    let lamp_x := CHUNK_SIZE / 2
    let lamp_z := CHUNK_SIZE / 2
    let world_x : Int := coord.x * (CHUNK_SIZE : Int) + lamp_x
    let world_z : Int := coord.z * (CHUNK_SIZE : Int) + lamp_z
    let lamp_world_y := H world_x world_z + 1
    if base_y ≤ lamp_world_y ∧ lamp_world_y < base_y + (CHUNK_SIZE : Int) then
      chunk.set lamp_x (lamp_world_y - base_y).toNat lamp_z BlockKind.Lamp.id
    else chunk
  else chunk

/-! ## Visibility recomputation (src/world.rs lines 116-189) -/

/-- The 6 face-neighbour offsets (`NEIGHBORS` in `block_has_exposed_face`). -/
def faceNeighborOffsets : List IVec3 :=
  [⟨1, 0, 0⟩, ⟨-1, 0, 0⟩, ⟨0, 1, 0⟩, ⟨0, -1, 0⟩, ⟨0, 0, 1⟩, ⟨0, 0, -1⟩]

/-- `World::block_has_exposed_face`. -/
def World.block_has_exposed_face (w : World) (position : IVec3) : Bool :=
  faceNeighborOffsets.any fun offset =>
    let p := position + offset
    !(BlockKind.from_id (w.block_at p.x p.y p.z)).is_solid

/-- `World::compute_visibility_mask`: mark each solid, face-exposed cell. -/
def World.compute_visibility_mask (w : World) (coord : ChunkCoord) :
    Option (Nat → Bool) :=
  (w.chunk coord).map fun chunk =>
    let base := chunk_min_corner coord
    cellCoords.foldl (fun mask t =>
      let x := t.1
      let y := t.2.1
      let z := t.2.2
      let index := Chunk.index x y z
      let block := chunk.blocks index
      if !(BlockKind.from_id block).is_solid then mask
      else if w.block_has_exposed_face ⟨base.x + x, base.y + y, base.z + z⟩ then
        fun i => if i = index then true else mask i
      else mask)
      (fun _ => false)

/-- Self plus the 6 axis neighbours (`offsets` in
`recompute_visibility_around`). -/
def visibilityOffsets : List IVec3 :=
  [⟨0, 0, 0⟩, ⟨1, 0, 0⟩, ⟨-1, 0, 0⟩, ⟨0, 1, 0⟩, ⟨0, -1, 0⟩, ⟨0, 0, 1⟩, ⟨0, 0, -1⟩]

/-- `World::recompute_visibility_around`: refresh the visibility mask of each
resident chunk in the 7-chunk neighbourhood (blocks are untouched). -/
def World.recompute_visibility_around (w : World) (center : ChunkCoord) : World :=
  visibilityOffsets.foldl (fun w' offset =>
    let neighbor_coord : ChunkCoord :=
      ⟨center.x + offset.x, center.y + offset.y, center.z + offset.z⟩
    if (w'.chunks neighbor_coord).isSome then
      match w'.compute_visibility_mask neighbor_coord with
      | some mask =>
        match w'.chunks neighbor_coord with
        | some chunk => w'.insert neighbor_coord (chunk.set_visible_mask mask)
        | none => w'
      | none => w'
    else w') w

/-! ## Streaming (src/world.rs lines 72-86 and 218-236) -/

/-- `World::ensure_chunk`: generate and insert if absent (then refresh the
neighbourhood's visibility masks); no-op if resident. -/
def World.ensure_chunk (w : World) (H : Int → Int → Int) (coord : ChunkCoord) :
    World :=
  match w.chunks coord with
  | some _ => w
  | none =>
    (w.insert coord (generate_chunk H coord)).recompute_visibility_around coord

/-- The integers `lo..=hi` as a list. -/
def rangeInt (lo hi : Int) : List Int :=
  (List.range (hi - lo + 1).toNat).map fun (i : Nat) => lo + (i : Int)

/-- The chunk coordinates of the `ensure_chunks_in_radius` loop nest, in
source iteration order (dy outer, dz, dx inner). -/
def boxCoords (center : ChunkCoord) (radius vertical_radius : Int) :
    List ChunkCoord :=
  (rangeInt (-vertical_radius) vertical_radius).flatMap fun dy =>
    (rangeInt (-radius) radius).flatMap fun dz =>
      (rangeInt (-radius) radius).map fun dx =>
        ⟨center.x + dx, center.y + dy, center.z + dz⟩

/-- `World::ensure_chunks_in_radius`. -/
def World.ensure_chunks_in_radius (w : World) (H : Int → Int → Int)
    (center : ChunkCoord) (radius vertical_radius : Int) : World :=
  (boxCoords center radius vertical_radius).foldl (World.ensure_chunk · H ·) w

/-- Membership of `c` in the streaming box around `center`:
|dx| ≤ radius, |dz| ≤ radius, |dy| ≤ vertical_radius. -/
def inBox (center : ChunkCoord) (radius vertical_radius : Int)
    (c : ChunkCoord) : Prop :=
  -radius ≤ c.x - center.x ∧ c.x - center.x ≤ radius ∧
  -vertical_radius ≤ c.y - center.y ∧ c.y - center.y ≤ vertical_radius ∧
  -radius ≤ c.z - center.z ∧ c.z - center.z ≤ radius

instance (center : ChunkCoord) (radius vertical_radius : Int) (c : ChunkCoord) :
    Decidable (inBox center radius vertical_radius c) := by
  unfold inBox; infer_instance

/-- Modelled from the spec: `World::unload_chunks_outside` is absent from
src/ (only its caller in src/app/state.rs appears); spec §4.2: "removes
every resident chunk whose coordinate falls outside the given box". -/
def World.unload_chunks_outside (w : World) (center : ChunkCoord)
    (radius vertical_radius : Int) : World :=
  ⟨fun c => if inBox center radius vertical_radius c then w.chunks c else none⟩

/-- The error taxonomy of spec §7; `ChunkNotLoaded` is its only world error. -/
inductive WorldError where
  | ChunkNotLoaded
deriving DecidableEq

/-- Modelled from the spec: `World::set_block` is absent from src/ (only its
callers in src/app/state.rs appear); spec §4.2: "`set_block(world_pos, id)
-> Result`: fails with `ChunkNotLoaded` if the owning chunk is not resident
…; otherwise mutates the chunk in place" (no mask recomputation). -/
def World.set_block (w : World) (world_pos : IVec3) (id : BlockId) :
    Except WorldError World :=
  let cc := chunk_coord_from_block world_pos
  match w.chunks cc with
  | none => .error .ChunkNotLoaded
  | some chunk =>
    .ok (w.insert cc
      (chunk.set (mod_floor world_pos.x (CHUNK_SIZE : Int)).toNat
        (mod_floor world_pos.y (CHUNK_SIZE : Int)).toNat
        (mod_floor world_pos.z (CHUNK_SIZE : Int)).toNat id))

/-! ## Raycast / DDA traversal (src/raycast.rs)

`f32` scalars are exact rationals; the per-axis `t` values, which the source
initialises to `f32::INFINITY` for axes that never advance, live in
`WithTop ℚ`. -/

/-- Rational 3-vector (glam `Vec3` embedded over ℚ). -/
structure Vec3q where
  x : ℚ
  y : ℚ
  z : ℚ
deriving DecidableEq

/-- `f32::EPSILON`, exactly `2⁻²³`. -/
def eps32 : ℚ := 1 / 2 ^ 23

/-- `Vec3::length_squared`. -/
def Vec3q.length_squared (v : Vec3q) : ℚ :=
  v.x * v.x + v.y * v.y + v.z * v.z

/-- `Vec3::normalize`, `v / sqrt(length_squared v)`; the float square root is
the abstract parameter `S` (see the module comment). -/
def Vec3q.normalize (v : Vec3q) (S : ℚ → ℚ) : Vec3q :=
  let len := S v.length_squared
  ⟨v.x / len, v.y / len, v.z / len⟩

/-- `origin.floor().as_ivec3()`. -/
def Vec3q.floorI (v : Vec3q) : IVec3 := ⟨⌊v.x⌋, ⌊v.y⌋, ⌊v.z⌋⟩

/-- `struct RaycastHit`. -/
structure RaycastHit where
  block : IVec3
  face : FaceDirection
deriving DecidableEq

/-- `RaycastHit::placement_position`. -/
def RaycastHit.placement_position (h : RaycastHit) : IVec3 :=
  h.block + h.face.normal

/-- `axis_params` (src/raycast.rs lines 115-137): step sign, distance along
the ray to the first cell boundary (clamped at 0), and distance per cell
crossing; a near-zero direction component yields step 0 and `⊤` distances. -/
def axis_params (origin_component direction_component : ℚ)
    (block_component : Int) : Int × WithTop ℚ × WithTop ℚ :=
  if |direction_component| < eps32 then (0, ⊤, ⊤)
  else
    let step : Int := if 0 < direction_component then 1 else -1
    let boundary : ℚ :=
      if 0 < step then ((block_component + 1 : Int) : ℚ)
      else ((block_component : Int) : ℚ)
    let t_max := (boundary - origin_component) / direction_component
    let t_max := if t_max < 0 then 0 else t_max
    (step, (t_max : ℚ), ((1 / |direction_component| : ℚ) : WithTop ℚ))

/-- The `while` loop of `pick_block`, as fuel recursion: the fuel is the
remaining step budget `max_steps - steps` (the source's own loop bound).
State: current cell, face entered last, distance traveled, per-axis next
boundary distances. -/
def pickLoop (w : World) (max_distance : ℚ) (step_x step_y step_z : Int)
    (t_delta_x t_delta_y t_delta_z : WithTop ℚ) :
    Nat → IVec3 → Option FaceDirection → WithTop ℚ →
    WithTop ℚ → WithTop ℚ → WithTop ℚ → Option RaycastHit
  | 0, _, _, _, _, _, _ => none
  | fuel + 1, current, last_face, traveled, t_max_x, t_max_y, t_max_z =>
    if ¬ traveled ≤ ((max_distance : ℚ) : WithTop ℚ) then none
    else
      let hit : Option RaycastHit :=
        match last_face with
        | some face =>
          if (BlockKind.from_id
                (w.block_at current.x current.y current.z)).is_solid then
            some ⟨current, face⟩
          else none
        | none => none
      match hit with
      | some h => some h
      | none =>
        if t_max_x < t_max_y then
          if t_max_x < t_max_z then
            if step_x = 0 then none
            else
              pickLoop w max_distance step_x step_y step_z
                t_delta_x t_delta_y t_delta_z fuel
                ⟨current.x + step_x, current.y, current.z⟩
                (some (if 0 < step_x then .NegX else .PosX))
                t_max_x (t_max_x + t_delta_x) t_max_y t_max_z
          else
            if step_z = 0 then none
            else
              pickLoop w max_distance step_x step_y step_z
                t_delta_x t_delta_y t_delta_z fuel
                ⟨current.x, current.y, current.z + step_z⟩
                (some (if 0 < step_z then .NegZ else .PosZ))
                t_max_z t_max_x t_max_y (t_max_z + t_delta_z)
        else
          if t_max_y < t_max_z then
            if step_y = 0 then none
            else
              pickLoop w max_distance step_x step_y step_z
                t_delta_x t_delta_y t_delta_z fuel
                ⟨current.x, current.y + step_y, current.z⟩
                (some (if 0 < step_y then .NegY else .PosY))
                t_max_y t_max_x (t_max_y + t_delta_y) t_max_z
          else
            if step_z = 0 then none
            else
              pickLoop w max_distance step_x step_y step_z
                t_delta_x t_delta_y t_delta_z fuel
                ⟨current.x, current.y, current.z + step_z⟩
                (some (if 0 < step_z then .NegZ else .PosZ))
                t_max_z t_max_x t_max_y (t_max_z + t_delta_z)

/-- `pick_block` (src/raycast.rs lines 17-113). -/
def pick_block (S : ℚ → ℚ) (w : World) (origin direction : Vec3q)
    (max_distance : ℚ) : Option RaycastHit :=
  if max_distance ≤ 0 then none
  else
    let len_sq := direction.length_squared
    if len_sq < eps32 then none
    else
      let dir :=
        if |len_sq - 1| > 1 / 1000000 then direction.normalize S else direction
      let current := origin.floorI
      let px := axis_params origin.x dir.x current.x
      let py := axis_params origin.y dir.y current.y
      let pz := axis_params origin.z dir.z current.z
      pickLoop w max_distance px.1 py.1 pz.1 px.2.2 py.2.2 pz.2.2
        512 current none ((0 : ℚ) : WithTop ℚ) px.2.1 py.2.1 pz.2.1

/-! ## Player physics (src/physics.rs)

All `f32` constants as the exact rationals their decimal literals denote. -/

def PLAYER_WIDTH : ℚ := 3 / 5
def PLAYER_HALF_WIDTH : ℚ := PLAYER_WIDTH * (1 / 2)
def PLAYER_HEIGHT : ℚ := 9 / 5
def PLAYER_EYE_HEIGHT : ℚ := 81 / 50
def FLY_SPEED_MULTIPLIER : ℚ := 1
def WALK_SPEED : ℚ := 9 / 2
def JUMP_SPEED : ℚ := 13 / 2
def GRAVITY : ℚ := -20
def MAX_FALL_SPEED : ℚ := -54
def COLLISION_STEP : ℚ := 1 / 4
def COLLISION_EPS : ℚ := 1 / 10000

/-- `enum MovementMode`. -/
inductive MovementMode where
  | Fly | Walk
deriving DecidableEq

/-- `MovementMode::toggle`. -/
def MovementMode.toggle : MovementMode → MovementMode
  | .Fly => .Walk
  | .Walk => .Fly

/-- `MovementInput` (src/input.rs): normalized intent record. -/
structure MovementInput where
  wish_dir : Vec3q
  jump : Bool
  ascend : Bool
  descend : Bool
  speed : ℚ

/-- `struct PlayerPhysics`. -/
structure PlayerPhysics where
  position : Vec3q
  velocity : Vec3q
  mode : MovementMode
  on_ground : Bool
deriving DecidableEq

/-- `PlayerPhysics::new`. -/
def PlayerPhysics.new (feet_position : Vec3q) (mode : MovementMode) :
    PlayerPhysics :=
  ⟨feet_position, ⟨0, 0, 0⟩, mode, false⟩

/-- `PlayerPhysics::camera_position`. -/
def PlayerPhysics.camera_position (p : PlayerPhysics) : Vec3q :=
  ⟨p.position.x, p.position.y + PLAYER_EYE_HEIGHT, p.position.z⟩

/-- The movement axis (private `enum Axis`). -/
inductive Axis where
  | X | Y | Z
deriving DecidableEq

/-- Private `enum VerticalHit`. -/
inductive VerticalHit where
  | Floor | Ceiling
deriving DecidableEq

/-- `PlayerPhysics::position_with_axis_offset`. -/
def PlayerPhysics.position_with_axis_offset (p : PlayerPhysics) (axis : Axis)
    (delta : ℚ) : Vec3q :=
  match axis with
  | .X => ⟨p.position.x + delta, p.position.y, p.position.z⟩
  | .Y => ⟨p.position.x, p.position.y + delta, p.position.z⟩
  | .Z => ⟨p.position.x, p.position.y, p.position.z + delta⟩

/-- `PlayerPhysics::collides` (src/physics.rs lines 207-233): does the
player AABB with feet at `feet_position` overlap any solid cell?  The
inclusive cell ranges floor the box corners, with `COLLISION_EPS` shaved
off the max corner. -/
def collides (w : World) (feet_position : Vec3q) : Bool :=
  let min_x := feet_position.x - PLAYER_HALF_WIDTH
  let max_x := feet_position.x + PLAYER_HALF_WIDTH
  let min_y := feet_position.y
  let max_y := feet_position.y + PLAYER_HEIGHT
  let min_z := feet_position.z - PLAYER_HALF_WIDTH
  let max_z := feet_position.z + PLAYER_HALF_WIDTH
  (rangeInt ⌊min_y⌋ ⌊max_y - COLLISION_EPS⌋).any fun y =>
    (rangeInt ⌊min_z⌋ ⌊max_z - COLLISION_EPS⌋).any fun z =>
      (rangeInt ⌊min_x⌋ ⌊max_x - COLLISION_EPS⌋).any fun x =>
        (BlockKind.from_id (w.block_at x y z)).is_solid

/-- The collision-refinement loop of `move_along_axis` (the repeated-halving
search); returns the refined safe position when one is found before the
offset drops below `COLLISION_EPS`.  64 units of fuel strictly dominate the
source loop's iterations for any |step| ≤ `COLLISION_STEP` (13 halvings take
1/4 below 1/10000); exhausted fuel yields the natural-exit result. -/
def bisectFind (w : World) (p : PlayerPhysics) (axis : Axis) :
    Nat → ℚ → Option Vec3q
  | 0, _ => none
  | fuel + 1, reduced =>
    if ¬ |reduced| > COLLISION_EPS then none
    else
      let reduced := reduced * (1 / 2)
      let refined := p.position_with_axis_offset axis reduced
      if ¬ collides w refined then some refined
      else bisectFind w p axis fuel reduced

/-- The `while remaining.abs() > f32::EPSILON` loop of `move_along_axis`, as
fuel recursion; each pass either advances by a clamped sub-step (shrinking
`remaining` by `COLLISION_STEP`, or to zero) or collides and stops, so
`⌈|delta| / COLLISION_STEP⌉ + 1` fuel dominates the iteration count. -/
def moveLoop (w : World) (axis : Axis) (delta : ℚ) :
    Nat → PlayerPhysics → ℚ → Option VerticalHit →
    PlayerPhysics × Option VerticalHit
  | 0, p, _, last_vertical_hit => (p, last_vertical_hit)
  | fuel + 1, p, remaining, last_vertical_hit =>
    if ¬ |remaining| > eps32 then (p, last_vertical_hit)
    else
      let step := min COLLISION_STEP (max (-COLLISION_STEP) remaining)
      let candidate := p.position_with_axis_offset axis step
      if collides w candidate then
        let p :=
          match bisectFind w p axis 64 step with
          | some refined => { p with position := refined }
          | none => p
        match axis with
        | .X => ({ p with velocity := { p.velocity with x := 0 } },
                 last_vertical_hit)
        | .Y => (p, some (if delta < 0 then .Floor else .Ceiling))
        | .Z => ({ p with velocity := { p.velocity with z := 0 } },
                 last_vertical_hit)
      else
        moveLoop w axis delta fuel { p with position := candidate }
          (remaining - step) last_vertical_hit

/-- `PlayerPhysics::move_along_axis` (src/physics.rs lines 154-197). -/
def PlayerPhysics.move_along_axis (p : PlayerPhysics) (w : World) (axis : Axis)
    (delta : ℚ) : PlayerPhysics × Option VerticalHit :=
  if |delta| < eps32 then (p, none)
  else moveLoop w axis delta ((⌈|delta| / COLLISION_STEP⌉).toNat + 1) p delta none

/-- `PlayerPhysics::apply_movement` (src/physics.rs lines 130-152). -/
def PlayerPhysics.apply_movement (p : PlayerPhysics) (w : World) (dt : ℚ) :
    PlayerPhysics :=
  let dx := p.velocity.x * dt
  let dy := p.velocity.y * dt
  let dz := p.velocity.z * dt
  let r1 := p.move_along_axis w .X dx
  let r2 := r1.1.move_along_axis w .Y dy
  let r3 := r2.1.move_along_axis w .Z dz
  let p3 := r3.1
  match r2.2 with
  | some .Floor =>
    { p3 with on_ground := true, velocity := { p3.velocity with y := 0 } }
  | some .Ceiling => { p3 with velocity := { p3.velocity with y := 0 } }
  | none =>
    if |dy| > 0 then
      if dy < 0 then { p3 with on_ground := false } else p3
    else p3

/-- `PlayerPhysics::update_walk` (src/physics.rs lines 107-128). -/
def PlayerPhysics.update_walk (p : PlayerPhysics) (S : ℚ → ℚ) (w : World)
    (dt : ℚ) (movement : MovementInput) : PlayerPhysics :=
  let desired : Vec3q := ⟨movement.wish_dir.x, 0, movement.wish_dir.z⟩
  let desired :=
    if desired.length_squared > 0 then
      let n := desired.normalize S
      ⟨n.x * WALK_SPEED, n.y * WALK_SPEED, n.z * WALK_SPEED⟩
    else desired
  let p := { p with velocity := { p.velocity with x := desired.x, z := desired.z } }
  let p :=
    if movement.jump && p.on_ground then
      { p with velocity := { p.velocity with y := JUMP_SPEED }, on_ground := false }
    else
      let vy := p.velocity.y + GRAVITY * dt
      let vy := if vy < MAX_FALL_SPEED then MAX_FALL_SPEED else vy
      { p with velocity := { p.velocity with y := vy } }
  p.apply_movement w dt

/-- `PlayerPhysics::update_fly` (src/physics.rs lines 89-105). -/
def PlayerPhysics.update_fly (p : PlayerPhysics) (S : ℚ → ℚ) (w : World)
    (dt : ℚ) (movement : MovementInput) : PlayerPhysics :=
  let desired := movement.wish_dir
  let desired :=
    if movement.ascend then ⟨desired.x, desired.y + 1, desired.z⟩ else desired
  let desired : Vec3q :=
    if movement.descend then ⟨desired.x, desired.y - 1, desired.z⟩ else desired
  let speed := movement.speed * FLY_SPEED_MULTIPLIER
  let p :=
    if desired.length_squared > 0 then
      let n := desired.normalize S
      { p with velocity := ⟨n.x * speed, n.y * speed, n.z * speed⟩ }
    else { p with velocity := ⟨0, 0, 0⟩ }
  p.apply_movement w dt

/-- `PlayerPhysics::update`. -/
def PlayerPhysics.update (p : PlayerPhysics) (S : ℚ → ℚ) (w : World) (dt : ℚ)
    (movement : MovementInput) : PlayerPhysics :=
  match p.mode with
  | .Fly => p.update_fly S w dt movement
  | .Walk => p.update_walk S w dt movement

/-! ## Auxiliary definitions used in the statements below -/

/-- Block content at a coordinate (the chunk's id array, if resident). -/
def blocksAt (w : World) (c : ChunkCoord) : Option (Nat → BlockId) :=
  (w.chunks c).map Chunk.blocks

/-- Every resident chunk carries exactly the generator's block content.
This invariant holds for every world built by the streaming operations of
src/world.rs (which only insert freshly generated chunks and rewrite
visibility masks). -/
def GenInv (H : Int → Int → Int) (w : World) : Prop :=
  ∀ c ch, w.chunks c = some ch → ch.blocks = (generate_chunk H c).blocks

/-- The terrain id the fill loop body writes at a cell it covers. -/
def terrainKindId (H : Int → Int → Int) (coord : ChunkCoord)
    (x y z : Nat) : BlockId :=
  let world_y : Int := coord.y * (CHUNK_SIZE : Int) + y
  let height := H (coord.x * (CHUNK_SIZE : Int) + x) (coord.z * (CHUNK_SIZE : Int) + z)
  (if world_y = height then BlockKind.Grass
   else if height - 3 ≤ world_y then BlockKind.Dirt
   else BlockKind.Stone).id

/-- An all-stone chunk (for concrete test worlds). -/
def stoneChunk : Chunk := ⟨fun _ => BLOCK_STONE, fun _ => false⟩

/-- A world whose only resident chunk is all stone at chunk (0,-1,0): a
solid floor with surface at world height 0 under the [0,16)² column. -/
def stoneFloorWorld : World := World.new.insert ⟨0, -1, 0⟩ stoneChunk

/-! ## Helper lemmas: truncating vs floor division -/

theorem IVec3.add_def (a b : IVec3) :
    a + b = ⟨a.x + b.x, a.y + b.y, a.z + b.z⟩ := rfl


/-- Lower bound of the truncating remainder for a positive divisor. -/
theorem tmod_lower_bound (a : Int) {b : Int} (hb : 0 < b) : -b < a.tmod b := by
  cases a with
  | ofNat m =>
    have h := Int.tmod_nonneg b (a := Int.ofNat m) (Int.ofNat_zero_le m)
    omega
  | negSucc m =>
    obtain ⟨n, rfl⟩ := Int.eq_ofNat_of_zero_le hb.le
    have hn : 0 < n := by exact_mod_cast hb
    have h1 : Int.tmod (Int.negSucc m) ((n : Nat) : Int) =
        -(((m + 1) % n : Nat) : Int) := rfl
    have h2 : (m + 1) % n < n := Nat.mod_lt _ hn
    rw [h1]
    omega

/-- `div_floor` / `mod_floor` are Euclidean for positive divisors. -/
theorem floor_div_mod_spec (a b : Int) (hb : 0 < b) :
    div_floor a b * b + mod_floor a b = a ∧
    0 ≤ mod_floor a b ∧ mod_floor a b < b := by
  have h1 := Int.tmod_add_tdiv a b
  have h2 := tmod_lower_bound a hb
  have h3 := Int.tmod_lt_of_pos a hb
  unfold div_floor mod_floor
  by_cases hc : (0 < a.tmod b ∧ b < 0) ∨ (a.tmod b < 0 ∧ 0 < b)
  · simp only [if_pos hc]
    refine ⟨by linear_combination h1, by omega, by omega⟩
  · simp only [if_neg hc]
    refine ⟨by linear_combination h1, by omega, by omega⟩

/-- C2: for every integer `a` and every integer `b > 0`, the floor-division
and floor-modulo helpers of src/world.rs satisfy
`div_floor a b * b + mod_floor a b = a` and `0 ≤ mod_floor a b < b`,
including for negative `a`. -/
theorem div_floor_mod_floor_euclidean (a b : Int) (hb : 0 < b) :
    div_floor a b * b + mod_floor a b = a ∧
    0 ≤ mod_floor a b ∧ mod_floor a b < b :=
  floor_div_mod_spec a b hb

/-- Witness for `div_floor_mod_floor_euclidean` at `a = -5`, `b = 3`. -/
theorem div_floor_mod_floor_euclidean_witness :
    (0 : Int) < 3 ∧
    (div_floor (-5) 3 * 3 + mod_floor (-5) 3 = -5 ∧
     0 ≤ mod_floor (-5) 3 ∧ mod_floor (-5) 3 < 3) :=
  ⟨by decide, div_floor_mod_floor_euclidean (-5) 3 (by decide)⟩

/-! ## Chunk index arithmetic -/

/-- The flat index of in-range local offsets is in bounds. -/
theorem Chunk.index_lt_volume {x y z : Nat}
    (hx : x < CHUNK_SIZE) (hy : y < CHUNK_SIZE) (hz : z < CHUNK_SIZE) :
    Chunk.index x y z < CHUNK_VOLUME := by
  simp only [Chunk.index, CHUNK_SIZE, CHUNK_VOLUME] at *
  omega

/-- The flat index is injective on in-range local offsets. -/
theorem Chunk.index_inj {x y z x' y' z' : Nat}
    (hx : x < CHUNK_SIZE) (hz : z < CHUNK_SIZE)
    (hx' : x' < CHUNK_SIZE) (hz' : z' < CHUNK_SIZE)
    (h : Chunk.index x y z = Chunk.index x' y' z') :
    x = x' ∧ y = y' ∧ z = z' := by
  simp only [Chunk.index, CHUNK_SIZE] at *
  omega

/-! ## C1: block_at -/

/-- C1: for all integer world coordinates, `World::block_at` converts them
to a chunk coordinate and local offset by floor-division and floor-modulo by
the chunk edge 16 (the decompositions below), the local offsets always lie
in [0, 16) so the flat chunk index is in bounds (never panics, negative
coordinates included), the stored id of that cell is returned when the chunk
is resident, and air is returned when it is not (no prior `ensure_chunk`
required). -/
theorem block_at_floor_conversion_total (w : World) (x y z : Int) :
    (0 ≤ mod_floor x (CHUNK_SIZE : Int) ∧ mod_floor x (CHUNK_SIZE : Int) < 16) ∧
    (0 ≤ mod_floor y (CHUNK_SIZE : Int) ∧ mod_floor y (CHUNK_SIZE : Int) < 16) ∧
    (0 ≤ mod_floor z (CHUNK_SIZE : Int) ∧ mod_floor z (CHUNK_SIZE : Int) < 16) ∧
    x = div_floor x (CHUNK_SIZE : Int) * 16 + mod_floor x (CHUNK_SIZE : Int) ∧
    y = div_floor y (CHUNK_SIZE : Int) * 16 + mod_floor y (CHUNK_SIZE : Int) ∧
    z = div_floor z (CHUNK_SIZE : Int) * 16 + mod_floor z (CHUNK_SIZE : Int) ∧
    Chunk.index (mod_floor x (CHUNK_SIZE : Int)).toNat
      (mod_floor y (CHUNK_SIZE : Int)).toNat
      (mod_floor z (CHUNK_SIZE : Int)).toNat < CHUNK_VOLUME ∧
    (w.chunks ⟨div_floor x (CHUNK_SIZE : Int), div_floor y (CHUNK_SIZE : Int),
        div_floor z (CHUNK_SIZE : Int)⟩ = none →
      w.block_at x y z = BLOCK_AIR) ∧
    (∀ ch, w.chunks ⟨div_floor x (CHUNK_SIZE : Int), div_floor y (CHUNK_SIZE : Int),
        div_floor z (CHUNK_SIZE : Int)⟩ = some ch →
      w.block_at x y z =
        ch.blocks (Chunk.index (mod_floor x (CHUNK_SIZE : Int)).toNat
          (mod_floor y (CHUNK_SIZE : Int)).toNat
          (mod_floor z (CHUNK_SIZE : Int)).toNat)) := by
  have hb : (0 : Int) < (CHUNK_SIZE : Int) := by decide
  have hx := floor_div_mod_spec x (CHUNK_SIZE : Int) hb
  have hy := floor_div_mod_spec y (CHUNK_SIZE : Int) hb
  have hz := floor_div_mod_spec z (CHUNK_SIZE : Int) hb
  have h16 : ((CHUNK_SIZE : Nat) : Int) = 16 := by decide
  rw [h16] at hx hy hz
  refine ⟨⟨hx.2.1, by rw [h16]; omega⟩, ⟨hy.2.1, by rw [h16]; omega⟩,
    ⟨hz.2.1, by rw [h16]; omega⟩,
    by rw [h16]; omega, by rw [h16]; omega, by rw [h16]; omega, ?_, ?_, ?_⟩
  · refine Chunk.index_lt_volume ?_ ?_ ?_ <;>
      · show _ < 16
        rw [h16]
        omega
  · intro hnone
    simp only [World.block_at, World.chunk, hnone]
  · intro ch hsome
    simp only [World.block_at, World.chunk, hsome, Chunk.get]

/-- Witness for `block_at_floor_conversion_total` on the empty world at
`(-5, 17, 0)`: the coordinate decompositions hold and the query answers
air. -/
theorem block_at_floor_conversion_total_witness :
    (0 ≤ mod_floor (-5) (CHUNK_SIZE : Int) ∧
      mod_floor (-5) (CHUNK_SIZE : Int) < 16) ∧
    World.new.block_at (-5) 17 0 = BLOCK_AIR :=
  ⟨(block_at_floor_conversion_total World.new (-5) 17 0).1,
   (block_at_floor_conversion_total World.new (-5) 17 0).2.2.2.2.2.2.2.1 rfl⟩

/-! ## C9: block registry totality -/

set_option maxRecDepth 8000 in
/-- C9: for every 8-bit block id, the registry lookup is total and pure —
the array access `BLOCK_DEFINITIONS[kind.id]` is in bounds (`get?` returns
`some`), ids with no named block kind resolve to the air definition (which
is non-solid), and `is_solid` equals the `solid` field of the returned
definition. -/
theorem block_definition_total_on_u8 :
    ∀ id : Nat, id < 256 →
      BLOCK_DEFINITIONS.get? (BlockKind.from_id id).id =
        some (block_definition id) ∧
      (BlockKind.from_id id).is_solid = (block_definition id).solid ∧
      (¬ (1 ≤ id ∧ id ≤ 6) →
        block_definition id = airDefinition ∧
        (block_definition id).solid = false) := by
  with_unfolding_all decide

/-- Witness for `block_definition_total_on_u8` at the unknown id 255. -/
theorem block_definition_total_on_u8_witness :
    (255 : Nat) < 256 ∧
    BLOCK_DEFINITIONS.get? (BlockKind.from_id 255).id =
      some (block_definition 255) :=
  ⟨by decide, (block_definition_total_on_u8 255 (by decide)).1⟩

/-! ## Helper lemmas: world residency and block content under streaming -/



/-- A fold whose step preserves per-coordinate block content preserves it. -/
theorem foldl_preserves_blocksAt {α : Type} (f : World → α → World)
    (h : ∀ w a c, blocksAt (f w a) c = blocksAt w c) :
    ∀ (l : List α) (w : World) (c : ChunkCoord),
      blocksAt (l.foldl f w) c = blocksAt w c := by
  intro l
  induction l with
  | nil => intro w c; rfl
  | cons a t ih => intro w c; rw [List.foldl_cons, ih, h]

/-- `recompute_visibility_around` rewrites only visibility masks: the block
content of every coordinate is unchanged. -/
theorem recompute_visibility_around_blocksAt (w : World) (center : ChunkCoord)
    (c : ChunkCoord) :
    blocksAt (w.recompute_visibility_around center) c = blocksAt w c := by
  unfold World.recompute_visibility_around
  refine foldl_preserves_blocksAt _ ?_ visibilityOffsets w c
  intro w' off c'
  set nc : ChunkCoord :=
    ⟨center.x + off.x, center.y + off.y, center.z + off.z⟩ with hnc
  by_cases hres : (w'.chunks nc).isSome
  · simp only [hres, if_true]
    cases hmask : w'.compute_visibility_mask nc with
    | none => rfl
    | some mask =>
      cases hch : w'.chunks nc with
      | none => simp [hmask, hch]
      | some ch =>
        simp only [hmask, hch]
        by_cases hc : c' = nc
        · subst hc
          simp [blocksAt, World.insert, Chunk.set_visible_mask, hch]
        · simp [blocksAt, World.insert, hc]
  · simp [hres]

/-- Residency equals residency of the block-content view. -/
theorem isSome_chunks_eq_isSome_blocksAt (w : World) (c : ChunkCoord) :
    (w.chunks c).isSome = (blocksAt w c).isSome := by
  unfold blocksAt
  cases w.chunks c <;> rfl

/-- `ensure_chunk` makes its coordinate resident and disturbs no other
coordinate's residency. -/
theorem ensure_chunk_isSome (w : World) (H : Int → Int → Int)
    (coord c : ChunkCoord) :
    ((w.ensure_chunk H coord).chunks c).isSome = true ↔
      c = coord ∨ (w.chunks c).isSome = true := by
  unfold World.ensure_chunk
  cases hch : w.chunks coord with
  | some ch =>
    constructor
    · intro h; right; exact h
    · intro h
      rcases h with h | h
      · subst h; rw [hch]; rfl
      · exact h
  | none =>
    have h1 := recompute_visibility_around_blocksAt
      (w.insert coord (generate_chunk H coord)) coord c
    have h2 : (((w.insert coord (generate_chunk H coord)).recompute_visibility_around
        coord).chunks c).isSome =
        ((w.insert coord (generate_chunk H coord)).chunks c).isSome := by
      rw [isSome_chunks_eq_isSome_blocksAt, h1, isSome_chunks_eq_isSome_blocksAt]
    rw [h2]
    show (if c = coord then some (generate_chunk H coord) else w.chunks c).isSome
      = true ↔ _
    by_cases hc : c = coord
    · simp [hc]
    · simp [hc]

/-- `ensure_chunk` on a resident coordinate is a no-op. -/
theorem ensure_chunk_resident_eq (w : World) (H : Int → Int → Int)
    (coord : ChunkCoord) (h : (w.chunks coord).isSome = true) :
    w.ensure_chunk H coord = w := by
  obtain ⟨ch, hch⟩ := Option.isSome_iff_exists.mp h
  unfold World.ensure_chunk
  rw [hch]

/-- Block content after `ensure_chunk`: the generator's content at a freshly
inserted coordinate, untouched content everywhere else. -/
theorem ensure_chunk_blocksAt (w : World) (H : Int → Int → Int)
    (coord c : ChunkCoord) :
    blocksAt (w.ensure_chunk H coord) c =
      if c = coord then
        match w.chunks coord with
        | some ch => some ch.blocks
        | none => some (generate_chunk H coord).blocks
      else blocksAt w c := by
  unfold World.ensure_chunk
  cases hch : w.chunks coord with
  | some ch =>
    by_cases hc : c = coord
    · subst hc; simp [blocksAt, hch]
    · simp [hc]
  | none =>
    rw [recompute_visibility_around_blocksAt]
    by_cases hc : c = coord
    · subst hc; simp [blocksAt, World.insert]
    · simp [blocksAt, World.insert, hc]

/-! ## Range and box membership -/

theorem mem_rangeInt {lo hi i : Int} : i ∈ rangeInt lo hi ↔ lo ≤ i ∧ i ≤ hi := by
  unfold rangeInt
  rw [List.mem_map]
  constructor
  · rintro ⟨k, hk, rfl⟩
    rw [List.mem_range] at hk
    omega
  · intro h
    refine ⟨(i - lo).toNat, ?_, ?_⟩
    · rw [List.mem_range]; omega
    · omega

theorem mem_boxCoords {center : ChunkCoord} {r v : Int} {c : ChunkCoord} :
    c ∈ boxCoords center r v ↔ inBox center r v c := by
  simp only [boxCoords, List.mem_flatMap, List.mem_map, mem_rangeInt]
  unfold inBox
  constructor
  · rintro ⟨dy, hdy, dz, hdz, dx, hdx, rfl⟩
    simp only
    omega
  · intro h
    refine ⟨c.y - center.y, by omega, c.z - center.z, by omega,
      c.x - center.x, by omega, ?_⟩
    cases c
    simp only [ChunkCoord.mk.injEq]
    omega

/-- Residency after folding `ensure_chunk` over a list of coordinates. -/
theorem foldl_ensure_isSome (H : Int → Int → Int) (l : List ChunkCoord)
    (w : World) (c : ChunkCoord) :
    ((l.foldl (World.ensure_chunk · H ·) w).chunks c).isSome = true ↔
      c ∈ l ∨ (w.chunks c).isSome = true := by
  induction l generalizing w with
  | nil => simp
  | cons a t ih =>
    rw [List.foldl_cons, ih, ensure_chunk_isSome]
    simp only [List.mem_cons]
    tauto

/-- The lookup view of the (spec-modelled) unload operation. -/
theorem unload_chunks_outside_lookup (w : World) (center : ChunkCoord)
    (r v : Int) (c : ChunkCoord) :
    (w.unload_chunks_outside center r v).chunks c =
      if inBox center r v c then w.chunks c else none := rfl

/-! ## C3: streaming load/unload residency -/

/-- C3: after `ensure_chunks_in_radius center r v`, a chunk coordinate is
resident iff it lies in the r/v box around `center` or was already resident
(in particular every box coordinate is resident, independent of iteration
order); after a subsequent `unload_chunks_outside center r2 v2` with
`r2 < r`, exactly the resident chunks outside the r2/v2 box are gone and
those inside it remain. -/
theorem streaming_box_residency (H : Int → Int → Int) (w : World)
    (center : ChunkCoord) (r v r2 v2 : Int) (_hr : r2 < r) (c : ChunkCoord) :
    (((w.ensure_chunks_in_radius H center r v).chunks c).isSome = true ↔
      inBox center r v c ∨ (w.chunks c).isSome = true) ∧
    ((((w.ensure_chunks_in_radius H center r v).unload_chunks_outside
        center r2 v2).chunks c).isSome = true ↔
      inBox center r2 v2 c ∧
        ((w.ensure_chunks_in_radius H center r v).chunks c).isSome = true) := by
  have h1 : ∀ c' : ChunkCoord,
      ((w.ensure_chunks_in_radius H center r v).chunks c').isSome = true ↔
        inBox center r v c' ∨ (w.chunks c').isSome = true := by
    intro c'
    unfold World.ensure_chunks_in_radius
    rw [foldl_ensure_isSome, mem_boxCoords]
  refine ⟨h1 c, ?_⟩
  rw [unload_chunks_outside_lookup]
  by_cases hc : inBox center r2 v2 c
  · simp [hc]
  · simp [hc]

/-- Witness for `streaming_box_residency`: center (0,0,0), load radius 1,
unload radius 0, probe coordinate (1,0,0) on the empty world. -/
theorem streaming_box_residency_witness :
    (0 : Int) < 1 ∧
    ((((World.new.ensure_chunks_in_radius (fun _ _ => 0) ⟨0, 0, 0⟩ 1 0).chunks
        ⟨1, 0, 0⟩).isSome = true ↔
      inBox ⟨0, 0, 0⟩ 1 0 ⟨1, 0, 0⟩ ∨ (World.new.chunks ⟨1, 0, 0⟩).isSome = true) ∧
     ((((World.new.ensure_chunks_in_radius (fun _ _ => 0) ⟨0, 0, 0⟩ 1
          0).unload_chunks_outside ⟨0, 0, 0⟩ 0 0).chunks ⟨1, 0, 0⟩).isSome = true ↔
      inBox ⟨0, 0, 0⟩ 0 0 ⟨1, 0, 0⟩ ∧
        ((World.new.ensure_chunks_in_radius (fun _ _ => 0) ⟨0, 0, 0⟩ 1 0).chunks
          ⟨1, 0, 0⟩).isSome = true)) :=
  ⟨by decide,
   streaming_box_residency (fun _ _ => 0) World.new ⟨0, 0, 0⟩ 1 0 0 0
     (by decide) ⟨1, 0, 0⟩⟩

/-! ## C5: generation idempotence and determinism -/

/-- C5: under the invariant that every resident chunk carries generator
content (true of every world the streaming code of src/world.rs builds),
the content at `c` after `ensure_chunk c` is exactly the deterministic
generator's output for `c`; hence ensuring twice equals ensuring once
(the second call is a complete no-op), and removing the chunk and
re-ensuring it reproduces bit-identical block content. -/
theorem ensure_chunk_idempotent_deterministic (H : Int → Int → Int)
    (w : World) (c : ChunkCoord) (hInv : GenInv H w) :
    (w.ensure_chunk H c).ensure_chunk H c = w.ensure_chunk H c ∧
    blocksAt (w.ensure_chunk H c) c = some (generate_chunk H c).blocks ∧
    blocksAt ((w.remove c).ensure_chunk H c) c =
      some (generate_chunk H c).blocks := by
  refine ⟨?_, ?_, ?_⟩
  · refine ensure_chunk_resident_eq _ H c ?_
    rw [ensure_chunk_isSome]
    left; rfl
  · rw [ensure_chunk_blocksAt]
    cases hch : w.chunks c with
    | some ch => simp [hch, hInv c ch hch]
    | none => simp [hch]
  · rw [ensure_chunk_blocksAt]
    have h0 : (w.remove c).chunks c = none := by simp [World.remove]
    simp [h0]

/-- Witness for `ensure_chunk_idempotent_deterministic` on the empty world
(whose generator-content invariant holds vacuously). -/
theorem ensure_chunk_idempotent_deterministic_witness :
    ((World.new.ensure_chunk (fun _ _ => 0) ⟨0, 0, 0⟩).ensure_chunk
        (fun _ _ => 0) ⟨0, 0, 0⟩ =
      World.new.ensure_chunk (fun _ _ => 0) ⟨0, 0, 0⟩) ∧
    blocksAt (World.new.ensure_chunk (fun _ _ => 0) ⟨0, 0, 0⟩) ⟨0, 0, 0⟩ =
      some (generate_chunk (fun _ _ => 0) ⟨0, 0, 0⟩).blocks :=
  ⟨(ensure_chunk_idempotent_deterministic (fun _ _ => 0) World.new ⟨0, 0, 0⟩
      (fun _ _ h => nomatch h)).1,
   (ensure_chunk_idempotent_deterministic (fun _ _ => 0) World.new ⟨0, 0, 0⟩
      (fun _ _ h => nomatch h)).2.1⟩

/-! ## C4: set_block -/

/-- Two integers with equal floor-quotient and floor-remainder by 16 are
equal. -/
theorem coord_eq_of_decomp {x x' : Int}
    (hd : div_floor x (CHUNK_SIZE : Int) = div_floor x' (CHUNK_SIZE : Int))
    (hm : mod_floor x (CHUNK_SIZE : Int) = mod_floor x' (CHUNK_SIZE : Int)) :
    x = x' := by
  have hb : (0 : Int) < (CHUNK_SIZE : Int) := by decide
  have h1 := (floor_div_mod_spec x (CHUNK_SIZE : Int) hb).1
  have h2 := (floor_div_mod_spec x' (CHUNK_SIZE : Int) hb).1
  rw [hd, hm] at h1
  omega

/-- C4: `set_block` (spec-modelled, see its definition) returns
`ChunkNotLoaded` exactly when the owning chunk is absent — the functional
embedding returns no world on error, so the world is trivially unchanged —
and on a resident chunk succeeds, changing the queried content of exactly
the targeted block and no residency. -/
theorem set_block_not_loaded_or_mutates (w : World) (pos : IVec3)
    (id : BlockId) :
    (w.chunks (chunk_coord_from_block pos) = none →
      w.set_block pos id = Except.error WorldError.ChunkNotLoaded) ∧
    ((w.chunks (chunk_coord_from_block pos)).isSome = true →
      ∃ w', w.set_block pos id = Except.ok w' ∧
        (∀ q : IVec3, w'.block_at q.x q.y q.z =
          if q = pos then id else w.block_at q.x q.y q.z) ∧
        (∀ cc, (w'.chunks cc).isSome = (w.chunks cc).isSome)) := by
  constructor
  · intro h
    simp only [World.set_block]
    rw [h]
  · intro h
    obtain ⟨ch, hch⟩ := Option.isSome_iff_exists.mp h
    have hb : (0 : Int) < (CHUNK_SIZE : Int) := by decide
    refine ⟨w.insert (chunk_coord_from_block pos)
      (ch.set (mod_floor pos.x (CHUNK_SIZE : Int)).toNat
        (mod_floor pos.y (CHUNK_SIZE : Int)).toNat
        (mod_floor pos.z (CHUNK_SIZE : Int)).toNat id), ?_, ?_, ?_⟩
    · simp only [World.set_block]
      rw [hch]
    · intro q
      have hqx := floor_div_mod_spec q.x (CHUNK_SIZE : Int) hb
      have hqy := floor_div_mod_spec q.y (CHUNK_SIZE : Int) hb
      have hqz := floor_div_mod_spec q.z (CHUNK_SIZE : Int) hb
      have hpx := floor_div_mod_spec pos.x (CHUNK_SIZE : Int) hb
      have hpy := floor_div_mod_spec pos.y (CHUNK_SIZE : Int) hb
      have hpz := floor_div_mod_spec pos.z (CHUNK_SIZE : Int) hb
      by_cases hcc : (⟨div_floor q.x (CHUNK_SIZE : Int),
          div_floor q.y (CHUNK_SIZE : Int), div_floor q.z (CHUNK_SIZE : Int)⟩ :
            ChunkCoord) = chunk_coord_from_block pos
      · -- q lies in the mutated chunk
        by_cases hq : q = pos
        · subst hq
          simp [World.block_at, World.chunk, World.insert, hcc, Chunk.get,
            Chunk.set]
        · -- same chunk, different cell: the flat indices differ
          have hqcc : chunk_coord_from_block q = chunk_coord_from_block pos := hcc
          have hdx : div_floor q.x (CHUNK_SIZE : Int) =
              div_floor pos.x (CHUNK_SIZE : Int) :=
            congrArg ChunkCoord.x hqcc
          have hdy : div_floor q.y (CHUNK_SIZE : Int) =
              div_floor pos.y (CHUNK_SIZE : Int) :=
            congrArg ChunkCoord.y hqcc
          have hdz : div_floor q.z (CHUNK_SIZE : Int) =
              div_floor pos.z (CHUNK_SIZE : Int) :=
            congrArg ChunkCoord.z hqcc
          have hne : Chunk.index (mod_floor q.x (CHUNK_SIZE : Int)).toNat
              (mod_floor q.y (CHUNK_SIZE : Int)).toNat
              (mod_floor q.z (CHUNK_SIZE : Int)).toNat ≠
              Chunk.index (mod_floor pos.x (CHUNK_SIZE : Int)).toNat
              (mod_floor pos.y (CHUNK_SIZE : Int)).toNat
              (mod_floor pos.z (CHUNK_SIZE : Int)).toNat := by
            intro he
            obtain ⟨hex, hey, hez⟩ := Chunk.index_inj
              (by simp only [CHUNK_SIZE] at hqx ⊢; omega)
              (by simp only [CHUNK_SIZE] at hqz ⊢; omega)
              (by simp only [CHUNK_SIZE] at hpx ⊢; omega)
              (by simp only [CHUNK_SIZE] at hpz ⊢; omega) he
            apply hq
            have ex : q.x = pos.x := coord_eq_of_decomp hdx (by omega)
            have ey : q.y = pos.y := coord_eq_of_decomp hdy (by omega)
            have ez : q.z = pos.z := coord_eq_of_decomp hdz (by omega)
            cases q; cases pos
            simp only [IVec3.mk.injEq] at ex ey ez ⊢
            exact ⟨ex, ey, ez⟩
          have hwq : w.chunks (chunk_coord_from_block q) = some ch := by
            rw [hqcc]; exact hch
          simp [World.block_at, World.chunk, World.insert, hcc, Chunk.get,
            Chunk.set, hne, hq, hch]
      · -- q lies in a different chunk: lookup unchanged
        have hq : q ≠ pos := by
          intro he; exact hcc (by rw [he]; rfl)
        simp only [World.block_at, World.chunk, World.insert, if_neg hcc,
          if_neg hq]
    · intro cc
      by_cases hc : cc = chunk_coord_from_block pos
      · subst hc
        simp [World.insert, hch]
      · simp [World.insert, hc]

/-- Witness for `set_block_not_loaded_or_mutates`: a world holding only the
empty chunk at (0,0,0) accepts a mutation at (1,2,3). -/
theorem set_block_not_loaded_or_mutates_witness :
    (((World.new.insert ⟨0, 0, 0⟩ Chunk.new).chunks
        (chunk_coord_from_block ⟨1, 2, 3⟩)).isSome = true) ∧
    ∃ w', (World.new.insert ⟨0, 0, 0⟩ Chunk.new).set_block ⟨1, 2, 3⟩ 5 =
        Except.ok w' ∧
      (∀ q : IVec3, w'.block_at q.x q.y q.z =
        if q = ⟨1, 2, 3⟩ then 5
        else (World.new.insert ⟨0, 0, 0⟩ Chunk.new).block_at q.x q.y q.z) ∧
      (∀ cc, (w'.chunks cc).isSome =
        ((World.new.insert ⟨0, 0, 0⟩ Chunk.new).chunks cc).isSome) :=
  ⟨by decide,
   (set_block_not_loaded_or_mutates (World.new.insert ⟨0, 0, 0⟩ Chunk.new)
     ⟨1, 2, 3⟩ 5).2 (by decide)⟩

/-! ## C10: what the generator writes -/

theorem mem_cellCoords {x y z : Nat} :
    (x, y, z) ∈ cellCoords ↔ x < CHUNK_SIZE ∧ y < CHUNK_SIZE ∧ z < CHUNK_SIZE := by
  unfold cellCoords
  rw [List.mem_flatMap]
  constructor
  · rintro ⟨a, ha, hmem⟩
    rw [List.mem_range] at ha
    rw [List.mem_flatMap] at hmem
    obtain ⟨b, hb, hmem⟩ := hmem
    rw [List.mem_range] at hb
    rw [List.mem_map] at hmem
    obtain ⟨c, hc, heq⟩ := hmem
    rw [List.mem_range] at hc
    obtain ⟨rfl, rfl, rfl⟩ : c = x ∧ a = y ∧ b = z := by
      injection heq with h1 h2
      injection h2 with h2 h3
      exact ⟨h1, h2, h3⟩
    exact ⟨hc, ha, hb⟩
  · rintro ⟨hx, hy, hz⟩
    exact ⟨y, by rw [List.mem_range]; exact hy,
      by rw [List.mem_flatMap]
         exact ⟨z, by rw [List.mem_range]; exact hz,
           by rw [List.mem_map]
              exact ⟨x, by rw [List.mem_range]; exact hx, rfl⟩⟩⟩

/-- Reading a cell after `Chunk.set`. -/
theorem Chunk.get_set (c : Chunk) (x y z x' y' z' : Nat) (b : BlockId) :
    (c.set x y z b).get x' y' z' =
      if Chunk.index x' y' z' = Chunk.index x y z then b
      else c.get x' y' z' := rfl


/-- `generateFill` at its own cell. -/
theorem generateFill_get_self (H : Int → Int → Int) (coord : ChunkCoord)
    (c : Chunk) (x y z : Nat) :
    (generateFill H coord c (x, y, z)).get x y z =
      if (coord.y * (CHUNK_SIZE : Int) + y) ≤
          H (coord.x * (CHUNK_SIZE : Int) + x) (coord.z * (CHUNK_SIZE : Int) + z)
      then terrainKindId H coord x y z
      else c.get x y z := by
  unfold generateFill terrainKindId
  by_cases hcond : (coord.y * (CHUNK_SIZE : Int) + y) ≤
      H (coord.x * (CHUNK_SIZE : Int) + x) (coord.z * (CHUNK_SIZE : Int) + z)
  · simp only [hcond, if_true, Chunk.get_set, if_pos rfl]
  · simp only [hcond, if_false]

/-- `generateFill` leaves every other in-range cell untouched. -/
theorem generateFill_get_other (H : Int → Int → Int) (coord : ChunkCoord)
    (c : Chunk) (t : Nat × Nat × Nat) (x y z : Nat)
    (hx : x < CHUNK_SIZE) (hz : z < CHUNK_SIZE)
    (ht1 : t.1 < CHUNK_SIZE) (ht2 : t.2.2 < CHUNK_SIZE)
    (hne : t ≠ (x, y, z)) :
    (generateFill H coord c t).get x y z = c.get x y z := by
  obtain ⟨tx, ty, tz⟩ := t
  simp only at ht1 ht2
  unfold generateFill
  simp only
  split
  · rw [Chunk.get_set]
    rw [if_neg]
    intro he
    obtain ⟨rfl, rfl, rfl⟩ := Chunk.index_inj hx hz ht1 ht2 he
    exact hne rfl
  · rfl

/-- Content of a cell after folding the fill body over a cell list. -/
theorem foldl_generateFill_get (H : Int → Int → Int) (coord : ChunkCoord)
    (l : List (Nat × Nat × Nat)) (c : Chunk) (x y z : Nat)
    (hx : x < CHUNK_SIZE) (_hy : y < CHUNK_SIZE) (hz : z < CHUNK_SIZE)
    (hl : ∀ t ∈ l, t.1 < CHUNK_SIZE ∧ t.2.2 < CHUNK_SIZE) :
    (l.foldl (generateFill H coord) c).get x y z =
      if (x, y, z) ∈ l then
        (if (coord.y * (CHUNK_SIZE : Int) + y) ≤
            H (coord.x * (CHUNK_SIZE : Int) + x) (coord.z * (CHUNK_SIZE : Int) + z)
         then terrainKindId H coord x y z
         else c.get x y z)
      else c.get x y z := by
  induction l generalizing c with
  | nil => simp
  | cons a t ih =>
    rw [List.foldl_cons]
    rw [ih (generateFill H coord c a) (fun u hu => hl u (List.mem_cons_of_mem a hu))]
    by_cases hmem : (x, y, z) ∈ t
    · simp only [hmem, if_true, List.mem_cons, or_true]
      split
      · rfl
      · by_cases ha : a = (x, y, z)
        · subst ha
          rw [generateFill_get_self]
          rw [if_neg]
          assumption
        · exact generateFill_get_other H coord c a x y z hx hz
            (hl a (List.mem_cons_self a t)).1 (hl a (List.mem_cons_self a t)).2 ha
    · simp only [hmem, if_false]
      by_cases ha : a = (x, y, z)
      · subst ha
        have : (x, y, z) ∈ (x, y, z) :: t := List.mem_cons_self _ _
        simp only [List.mem_cons, true_or, if_true, this]
        rw [generateFill_get_self]
      · have : ¬ (x, y, z) ∈ a :: t := by
          rw [List.mem_cons]
          rintro (he | he)
          · exact ha he.symm
          · exact hmem he
        simp only [this, if_false]
        exact generateFill_get_other H coord c a x y z hx hz
          (hl a (List.mem_cons_self a t)).1 (hl a (List.mem_cons_self a t)).2 ha

/-- The terrain fill content coincides with the depth-band classification. -/
theorem terrainKindId_classification (H : Int → Int → Int) (coord : ChunkCoord)
    (x y z : Nat) :
    (if (coord.y * ((CHUNK_SIZE : Nat) : Int) + y) ≤
        H (coord.x * ((CHUNK_SIZE : Nat) : Int) + x)
          (coord.z * ((CHUNK_SIZE : Nat) : Int) + z)
     then terrainKindId H coord x y z
     else BLOCK_AIR) =
      if H (coord.x * 16 + x) (coord.z * 16 + z) < coord.y * 16 + y then
        BLOCK_AIR
      else if coord.y * 16 + y = H (coord.x * 16 + x) (coord.z * 16 + z) then
        BLOCK_GRASS
      else if H (coord.x * 16 + x) (coord.z * 16 + z) - 3 ≤ coord.y * 16 + y then
        BLOCK_DIRT
      else BLOCK_STONE := by
  have hcs : ((CHUNK_SIZE : Nat) : Int) = 16 := by decide
  unfold terrainKindId
  simp only [hcs]
  split_ifs <;> first | rfl | omega

/-- C10: the generator writes only air, grass, dirt or stone — grass exactly
at the terrain height, dirt in the three cells below it, stone deeper, air
above — except that in chunk (0,0,0) alone the single cell at the chunk's
horizontal center (8,8), one above the terrain surface, is a Lamp when that
cell's height lies inside the chunk's vertical range [0,16). -/
theorem generate_chunk_content (H : Int → Int → Int) (coord : ChunkCoord)
    (x y z : Nat) (hx : x < CHUNK_SIZE) (hy : y < CHUNK_SIZE)
    (hz : z < CHUNK_SIZE) :
    (generate_chunk H coord).get x y z =
      if coord = ⟨0, 0, 0⟩ ∧ x = 8 ∧ z = 8 ∧ (y : Int) = H 8 8 + 1 then
        BLOCK_LAMP
      else if H (coord.x * 16 + x) (coord.z * 16 + z) < coord.y * 16 + y then
        BLOCK_AIR
      else if coord.y * 16 + y = H (coord.x * 16 + x) (coord.z * 16 + z) then
        BLOCK_GRASS
      else if H (coord.x * 16 + x) (coord.z * 16 + z) - 3 ≤ coord.y * 16 + y then
        BLOCK_DIRT
      else BLOCK_STONE := by
  have hcs : ((CHUNK_SIZE : Nat) : Int) = 16 := by decide
  have hfold := foldl_generateFill_get H coord cellCoords Chunk.new x y z hx hy hz
    (fun t ht => by
      obtain ⟨a, b, c⟩ := t
      have h := mem_cellCoords.mp ht
      exact ⟨h.1, h.2.2⟩)
  rw [if_pos (mem_cellCoords.mpr ⟨hx, hy, hz⟩)] at hfold
  have hnew : Chunk.new.get x y z = BLOCK_AIR := rfl
  rw [hnew] at hfold
  have hclass := terrainKindId_classification H coord x y z
  by_cases hc0 : coord = ⟨0, 0, 0⟩
  case neg =>
    have hgen : generate_chunk H coord =
        cellCoords.foldl (generateFill H coord) Chunk.new := by
      unfold generate_chunk
      rw [if_neg hc0]
    rw [hgen, hfold, hclass]
    rw [if_neg (show ¬(coord = ⟨0, 0, 0⟩ ∧ x = 8 ∧ z = 8 ∧
      (y : Int) = H 8 8 + 1) from fun hcontra => hc0 hcontra.1)]
  case pos =>
    subst hc0
    have hc2 : CHUNK_SIZE / 2 = 8 := by decide
    simp only [generate_chunk, if_pos rfl, hcs, hc2]
    norm_num
    simp only [hcs] at hfold hclass
    norm_num at hfold hclass
    by_cases hrange : (0 : Int) ≤ H 8 8 + 1 ∧ H 8 8 + 1 < 16
    · rw [if_pos hrange, Chunk.get_set]
      by_cases hcell : x = 8 ∧ z = 8 ∧ (y : Int) = H 8 8 + 1
      · obtain ⟨rfl, rfl, hyy⟩ := hcell
        have hyn : y = (H 8 8 + 1).toNat := by omega
        rw [if_pos (by rw [hyn]), if_pos ⟨rfl, rfl, hyy⟩]
        rfl
      · rw [if_neg (fun he => by
          obtain ⟨h1, h2, h3⟩ := Chunk.index_inj hx hz (by decide) (by decide) he
          exact hcell ⟨h1, h3, by omega⟩)]
        rw [hfold, if_neg hcell, hclass]
    · rw [if_neg hrange, hfold]
      rw [if_neg (show ¬(x = 8 ∧ z = 8 ∧ (y : Int) = H 8 8 + 1) from
        fun hcontra => hrange (by omega))]
      exact hclass

/-- Witness for `generate_chunk_content` at chunk (1,0,0), cell (0,0,0),
with a height function that puts the surface below the chunk. -/
theorem generate_chunk_content_witness :
    (0 : Nat) < CHUNK_SIZE ∧
    (generate_chunk (fun _ _ => -1) ⟨1, 0, 0⟩).get 0 0 0 =
      if (⟨1, 0, 0⟩ : ChunkCoord) = ⟨0, 0, 0⟩ ∧ (0 : Nat) = 8 ∧ (0 : Nat) = 8 ∧
          ((0 : Nat) : Int) = (fun _ _ => (-1 : Int)) 8 8 + 1 then
        BLOCK_LAMP
      else if (fun _ _ => (-1 : Int)) ((⟨1, 0, 0⟩ : ChunkCoord).x * 16 + (0 : Nat))
          ((⟨1, 0, 0⟩ : ChunkCoord).z * 16 + (0 : Nat)) <
          (⟨1, 0, 0⟩ : ChunkCoord).y * 16 + (0 : Nat) then BLOCK_AIR
      else if (⟨1, 0, 0⟩ : ChunkCoord).y * 16 + (0 : Nat) =
          (fun _ _ => (-1 : Int)) ((⟨1, 0, 0⟩ : ChunkCoord).x * 16 + (0 : Nat))
          ((⟨1, 0, 0⟩ : ChunkCoord).z * 16 + (0 : Nat)) then BLOCK_GRASS
      else if (fun _ _ => (-1 : Int)) ((⟨1, 0, 0⟩ : ChunkCoord).x * 16 + (0 : Nat))
          ((⟨1, 0, 0⟩ : ChunkCoord).z * 16 + (0 : Nat)) - 3 ≤
          (⟨1, 0, 0⟩ : ChunkCoord).y * 16 + (0 : Nat) then BLOCK_DIRT
      else BLOCK_STONE :=
  ⟨by decide,
   generate_chunk_content (fun _ _ => -1) ⟨1, 0, 0⟩ 0 0 0 (by decide) (by decide)
     (by decide)⟩

/-! ## C7: raycast termination and degenerate inputs -/

/-- C7: `pick_block` terminates by construction — the traversal loop carries
the source's own step budget (`max_steps = 512`) as fuel, and an exhausted
budget yields no hit rather than an error; moreover non-positive
`max_distance` and near-zero-length directions return no hit. -/
theorem pick_block_degenerate_none (S : ℚ → ℚ) (w : World)
    (origin direction : Vec3q) (max_distance : ℚ) :
    (max_distance ≤ 0 →
      pick_block S w origin direction max_distance = none) ∧
    (direction.length_squared < eps32 →
      pick_block S w origin direction max_distance = none) ∧
    (∀ (sx sy sz : Int) (tdx tdy tdz : WithTop ℚ) (cur : IVec3)
        (lf : Option FaceDirection) (tr tmx tmy tmz : WithTop ℚ),
      pickLoop w max_distance sx sy sz tdx tdy tdz 0 cur lf tr tmx tmy tmz =
        none) := by
  refine ⟨?_, ?_, ?_⟩
  · intro h
    unfold pick_block
    rw [if_pos h]
  · intro h
    unfold pick_block
    by_cases hmd : max_distance ≤ 0
    · rw [if_pos hmd]
    · rw [if_neg hmd, if_pos h]
  · intro sx sy sz tdx tdy tdz cur lf tr tmx tmy tmz
    rfl

/-- Witness for `pick_block_degenerate_none`: a zero-length ray and a
non-positive distance both yield no hit. -/
theorem pick_block_degenerate_none_witness :
    ((-1 : ℚ) ≤ 0 ∧
      pick_block (fun q => q) World.new ⟨0, 0, 0⟩ ⟨0, -1, 0⟩ (-1) = none) ∧
    ((⟨0, 0, 0⟩ : Vec3q).length_squared < eps32 ∧
      pick_block (fun q => q) World.new ⟨0, 0, 0⟩ ⟨0, 0, 0⟩ 5 = none) :=
  ⟨⟨by norm_num,
    (pick_block_degenerate_none (fun q => q) World.new ⟨0, 0, 0⟩ ⟨0, -1, 0⟩
      (-1)).1 (by norm_num)⟩,
   ⟨by norm_num [Vec3q.length_squared, eps32],
    (pick_block_degenerate_none (fun q => q) World.new ⟨0, 0, 0⟩ ⟨0, 0, 0⟩
      5).2.1 (by norm_num [Vec3q.length_squared, eps32])⟩⟩

/-! ## C6: straight-down raycast round trip -/

/-- One unfolding step of the traversal loop for a straight-down ray
(`step = (0,-1,0)`, x/z distances at `⊤`): at each pass the loop checks the
current cell and steps one cell down.  Stated over the cell gap `n` to the
target cell `k0`: with enough fuel, non-solid cells strictly between, and
the distance budget reaching the target, the loop reports the target cell
entered through its top face. -/
theorem pickLoop_straight_down (w : World) (maxd : ℚ) (cx cz k0 : Int)
    (oy : ℚ)
    (hsolid : (BlockKind.from_id (w.block_at cx k0 cz)).is_solid = true)
    (hdist : oy - ((k0 : ℚ) + 1) ≤ maxd) :
    ∀ (n : Nat) (m : Int), m = k0 + (n : Int) →
      (∀ j : Int, k0 < j → j ≤ m →
        (BlockKind.from_id (w.block_at cx j cz)).is_solid = false) →
      ∀ fuel : Nat, n + 1 ≤ fuel →
        pickLoop w maxd 0 (-1) 0 ⊤ ((1 : ℚ) : WithTop ℚ) ⊤ fuel ⟨cx, m, cz⟩
          (some .PosY) ((oy - (m : ℚ) - 1 : ℚ) : WithTop ℚ) ⊤
          ((oy - (m : ℚ) : ℚ) : WithTop ℚ) ⊤ =
          some ⟨⟨cx, k0, cz⟩, .PosY⟩ := by
  intro n
  induction n with
  | zero =>
    intro m hm hair fuel hfuel
    obtain ⟨f, rfl⟩ : ∃ f, fuel = f + 1 := ⟨fuel - 1, by omega⟩
    have hm0 : m = k0 := by omega
    rw [hm0]
    simp only [pickLoop]
    rw [if_neg (not_not_intro (by
      rw [WithTop.coe_le_coe]
      linarith [hdist]))]
    simp [hsolid]
  | succ j ih =>
    intro m hm hair fuel hfuel
    obtain ⟨f, rfl⟩ : ∃ f, fuel = f + 1 := ⟨fuel - 1, by omega⟩
    simp only [pickLoop]
    rw [if_neg (not_not_intro (by
      rw [WithTop.coe_le_coe]
      have hcast : ((m : ℚ)) = (k0 : ℚ) + (j : ℚ) + 1 := by
        rw [hm]; push_cast; ring
      rw [hcast]
      linarith [hdist]))]
    rw [if_neg (show ¬ (BlockKind.from_id (w.block_at cx m cz)).is_solid = true
      from by rw [hair m (by omega) (by omega)]; exact Bool.false_ne_true)]
    rw [if_neg not_top_lt]
    rw [if_pos (WithTop.coe_lt_top _)]
    rw [if_neg (show ¬ (-1 : Int) = 0 from by decide)]
    have harg1 : ((oy - (m : ℚ) : ℚ) : WithTop ℚ) =
        ((oy - ((m + -1 : Int) : ℚ) - 1 : ℚ) : WithTop ℚ) := by
      norm_cast
      push_cast
      ring_nf
    have harg2 : ((oy - (m : ℚ) : ℚ) : WithTop ℚ) + ((1 : ℚ) : WithTop ℚ) =
        ((oy - ((m + -1 : Int) : ℚ) : ℚ) : WithTop ℚ) := by
      rw [← WithTop.coe_add]
      norm_cast
      push_cast
      ring_nf
    rw [show (if 0 < (-1 : Int) then FaceDirection.NegY else FaceDirection.PosY)
      = FaceDirection.PosY from by decide]
    rw [harg2, harg1]
    exact ih (m + -1) (by omega)
      (fun i hi1 hi2 => hair i hi1 (by omega)) f (by omega)

/-- C6: casting straight down from a point above a solid block, with only
non-solid cells in between (and enough distance and step budget), hits
exactly that block through its top face (`PosY`), and the placement cell is
the cell directly above the hit block. -/
theorem pick_block_straight_down (S : ℚ → ℚ) (w : World) (origin : Vec3q)
    (maxd : ℚ) (k0 : Int)
    (hmd : 0 < maxd)
    (hk0 : k0 < ⌊origin.y⌋)
    (hsolid : (BlockKind.from_id
      (w.block_at ⌊origin.x⌋ k0 ⌊origin.z⌋)).is_solid = true)
    (hair : ∀ m : Int, k0 < m → m < ⌊origin.y⌋ →
      (BlockKind.from_id (w.block_at ⌊origin.x⌋ m ⌊origin.z⌋)).is_solid = false)
    (hdist : origin.y - ((k0 : ℚ) + 1) ≤ maxd)
    (hsteps : ⌊origin.y⌋ - k0 ≤ 511) :
    pick_block S w origin ⟨0, -1, 0⟩ maxd =
      some ⟨⟨⌊origin.x⌋, k0, ⌊origin.z⌋⟩, .PosY⟩ ∧
    RaycastHit.placement_position ⟨⟨⌊origin.x⌋, k0, ⌊origin.z⌋⟩, .PosY⟩ =
      ⟨⌊origin.x⌋, k0 + 1, ⌊origin.z⌋⟩ := by
  constructor
  · unfold pick_block
    rw [if_neg (not_le.mpr hmd)]
    have hlen : (⟨0, -1, 0⟩ : Vec3q).length_squared = 1 := by
      norm_num [Vec3q.length_squared]
    rw [hlen]
    rw [if_neg (by norm_num [eps32])]
    rw [if_neg (by norm_num)]
    have hax : axis_params origin.x (0 : ℚ) ⌊origin.x⌋ = (0, ⊤, ⊤) := by
      unfold axis_params
      rw [if_pos (by norm_num [eps32])]
    have haz : axis_params origin.z (0 : ℚ) ⌊origin.z⌋ = (0, ⊤, ⊤) := by
      unfold axis_params
      rw [if_pos (by norm_num [eps32])]
    have hfl : (0 : ℚ) ≤ origin.y - (⌊origin.y⌋ : ℚ) := by
      have := Int.floor_le origin.y
      linarith
    have hay : axis_params origin.y (-1 : ℚ) ⌊origin.y⌋ =
        (-1, ((origin.y - (⌊origin.y⌋ : ℚ) : ℚ) : WithTop ℚ),
          ((1 : ℚ) : WithTop ℚ)) := by
      unfold axis_params
      rw [if_neg (by norm_num [eps32])]
      have hs : (if (0 : ℚ) < -1 then (1 : Int) else -1) = -1 := by norm_num
      have hdiv : (((⌊origin.y⌋ : ℚ)) - origin.y) / (-1 : ℚ) =
          origin.y - (⌊origin.y⌋ : ℚ) := by ring
      simp only [hs]
      norm_num
      rw [hdiv]
      rw [if_neg (by linarith)]
      rfl
    simp only [Vec3q.floorI, hax, hay, haz]
    rw [(by norm_num : (512 : Nat) = 511 + 1)]
    generalize hf : (511 : Nat) = fuel511
    simp only [pickLoop]
    rw [if_neg (not_not_intro (by
      rw [WithTop.coe_le_coe]
      linarith))]
    rw [if_neg not_top_lt]
    rw [if_pos (WithTop.coe_lt_top _)]
    rw [if_neg (show ¬ (-1 : Int) = 0 from by decide)]
    rw [show (if 0 < (-1 : Int) then FaceDirection.NegY else FaceDirection.PosY)
      = FaceDirection.PosY from by decide]
    have harg1 : ((origin.y - (⌊origin.y⌋ : ℚ) : ℚ) : WithTop ℚ) +
        ((1 : ℚ) : WithTop ℚ) =
        ((origin.y - ((⌊origin.y⌋ - 1 : Int) : ℚ) : ℚ) : WithTop ℚ) := by
      rw [← WithTop.coe_add]
      norm_cast
      push_cast
      ring_nf
    have harg2 : ((origin.y - (⌊origin.y⌋ : ℚ) : ℚ) : WithTop ℚ) =
        ((origin.y - ((⌊origin.y⌋ - 1 : Int) : ℚ) - 1 : ℚ) : WithTop ℚ) := by
      norm_cast
      push_cast
      ring_nf
    rw [harg1, harg2]
    have hstep : (⌊origin.y⌋ + -1 : Int) = ⌊origin.y⌋ - 1 := by ring
    rw [hstep]
    exact pickLoop_straight_down w maxd ⌊origin.x⌋ ⌊origin.z⌋ k0 origin.y
      hsolid hdist (⌊origin.y⌋ - 1 - k0).toNat (⌊origin.y⌋ - 1)
      (by omega)
      (fun j hj1 hj2 => hair j hj1 (by omega))
      fuel511 (by omega)
  · simp only [RaycastHit.placement_position, FaceDirection.normal,
      IVec3.add_def]
    simp only [IVec3.mk.injEq]
    refine ⟨by omega, trivial, by omega⟩


/-- Witness for `pick_block_straight_down`: from (1/2, 5/2, 1/2) straight
down over the stone floor, the ray hits cell (0,-1,0) through its top face
and the placement cell is (0,0,0). -/
theorem pick_block_straight_down_witness :
    (0 : ℚ) < 10 ∧
    (pick_block (fun q => q) stoneFloorWorld ⟨1/2, 5/2, 1/2⟩ ⟨0, -1, 0⟩ 10 =
      some ⟨⟨⌊(⟨1/2, 5/2, 1/2⟩ : Vec3q).x⌋, -1, ⌊(⟨1/2, 5/2, 1/2⟩ : Vec3q).z⌋⟩,
        .PosY⟩ ∧
     RaycastHit.placement_position
       ⟨⟨⌊(⟨1/2, 5/2, 1/2⟩ : Vec3q).x⌋, -1, ⌊(⟨1/2, 5/2, 1/2⟩ : Vec3q).z⌋⟩,
         .PosY⟩ =
       ⟨⌊(⟨1/2, 5/2, 1/2⟩ : Vec3q).x⌋, -1 + 1, ⌊(⟨1/2, 5/2, 1/2⟩ : Vec3q).z⌋⟩) :=
  ⟨by norm_num,
   pick_block_straight_down (fun q => q) stoneFloorWorld ⟨1/2, 5/2, 1/2⟩ 10 (-1)
     (by norm_num)
     (by with_unfolding_all decide)
     (by with_unfolding_all decide)
     (fun m h1 h2 => by
       interval_cases m <;> with_unfolding_all decide)
     (by norm_num)
     (by with_unfolding_all decide)⟩

/-! ## C8: one walking tick onto a floor -/

/-- The player AABB footprint centred at x = z = 1/2 spans exactly the
x = 0, z = 0 block column, so `collides` there reduces to a scan of the
spanned y cells. -/
theorem collides_center_column (w : World) (q : ℚ) :
    collides w ⟨1/2, q, 1/2⟩ =
      (rangeInt ⌊q⌋ ⌊q + 9/5 - 1/10000⌋).any
        (fun y => (BlockKind.from_id (w.block_at 0 y 0)).is_solid) := by
  unfold collides
  have hx1 : ⌊(1/2 : ℚ) - PLAYER_HALF_WIDTH⌋ = 0 := by
    norm_num [PLAYER_HALF_WIDTH, PLAYER_WIDTH]
  have hx2 : ⌊(1/2 : ℚ) + PLAYER_HALF_WIDTH - COLLISION_EPS⌋ = 0 := by
    norm_num [PLAYER_HALF_WIDTH, PLAYER_WIDTH, COLLISION_EPS]
  have hy2 : (⟨1/2, q, 1/2⟩ : Vec3q).y + PLAYER_HEIGHT - COLLISION_EPS =
      q + 9/5 - 1/10000 := by
    norm_num [PLAYER_HEIGHT, COLLISION_EPS]
  simp only [hy2]
  norm_num [hx1, hx2]
  have h00 : rangeInt 0 0 = [0] := by decide
  rw [h00]
  simp [List.any]

theorem rangeInt_two (a : Int) : rangeInt a (a + 1) = [a, a + 1] := by
  unfold rangeInt
  have h2 : (a + 1 - a + 1).toNat = 2 := by omega
  rw [h2, show List.range 2 = [0, 1] from by decide]
  simp only [List.map]
  norm_num

theorem rangeInt_three (a : Int) : rangeInt (a - 1) (a + 1) = [a - 1, a, a + 1] := by
  unfold rangeInt
  have h3 : (a + 1 - (a - 1) + 1).toNat = 3 := by omega
  rw [h3, show List.range 3 = [0, 1, 2] from by decide]
  simp only [List.map]
  norm_num
  omega

theorem floor_int_add (f : Int) (c : ℚ) : ⌊(f : ℚ) + c⌋ = f + ⌊c⌋ := by
  rw [add_comm ((f : ℚ)) c, Int.floor_add_int, add_comm]

/-- `collides` at the centre column with the feet strictly inside the floor
cell `f - 1` (the body reaching cell `f + 1`): collision. -/
theorem collides_floor_true (w : World) (f : Int) (c : ℚ)
    (hfloor : (BlockKind.from_id (w.block_at 0 (f - 1) 0)).is_solid = true)
    (h1 : ⌊c⌋ = -1) (h2 : ⌊c + 9/5 - 1/10000⌋ = 1) :
    collides w ⟨1/2, (f : ℚ) + c, 1/2⟩ = true := by
  rw [collides_center_column, floor_int_add, h1]
  have he : (f : ℚ) + c + 9/5 - 1/10000 = (f : ℚ) + (c + 9/5 - 1/10000) := by
    ring
  rw [he, floor_int_add, h2, show f + -1 = f - 1 from by ring, rangeInt_three]
  simp [hfloor]

/-- `collides` at the centre column with the feet in the air cell `f` and
the body inside cells `f` and `f + 1`, both non-solid: no collision. -/
theorem collides_floor_false (w : World) (f : Int) (c : ℚ)
    (hair0 : (BlockKind.from_id (w.block_at 0 f 0)).is_solid = false)
    (hair1 : (BlockKind.from_id (w.block_at 0 (f + 1) 0)).is_solid = false)
    (h1 : ⌊c⌋ = 0) (h2 : ⌊c + 9/5 - 1/10000⌋ = 1) :
    collides w ⟨1/2, (f : ℚ) + c, 1/2⟩ = false := by
  rw [collides_center_column, floor_int_add, h1]
  have he : (f : ℚ) + c + 9/5 - 1/10000 = (f : ℚ) + (c + 9/5 - 1/10000) := by
    ring
  rw [he, floor_int_add, h2, show f + 0 = f from by ring, rangeInt_two]
  simp [hair0, hair1]

/-- One unfolding of the halving refinement loop. -/
theorem bisectFind_succ (w : World) (p : PlayerPhysics) (axis : Axis)
    (fuel : Nat) (reduced : ℚ) :
    bisectFind w p axis (fuel + 1) reduced =
      if ¬ |reduced| > COLLISION_EPS then none
      else
        let r := reduced * (1 / 2)
        let refined := p.position_with_axis_offset axis r
        if ¬ collides w refined then some refined
        else bisectFind w p axis fuel r := rfl

/-- A zero-displacement axis move is a no-op. -/
theorem move_along_axis_zero (p : PlayerPhysics) (w : World) (axis : Axis) :
    p.move_along_axis w axis 0 = (p, none) := by
  unfold PlayerPhysics.move_along_axis
  rw [if_pos (by norm_num [eps32])]

/-- The halving refinement for a downward quarter-block step from 0.01
above the floor stops 7/3200 above the floor surface (five halvings). -/
theorem bisectFind_floor_eval (w : World) (f : Int) (p : PlayerPhysics)
    (hpos : p.position = ⟨1/2, (f : ℚ) + 1/100, 1/2⟩)
    (hfloor : (BlockKind.from_id (w.block_at 0 (f - 1) 0)).is_solid = true)
    (hair0 : (BlockKind.from_id (w.block_at 0 f 0)).is_solid = false)
    (hair1 : (BlockKind.from_id (w.block_at 0 (f + 1) 0)).is_solid = false) :
    bisectFind w p .Y 64 (-(1/4)) = some ⟨1/2, (f : ℚ) + 7/3200, 1/2⟩ := by
  have hoff : ∀ d : ℚ, p.position_with_axis_offset .Y d =
      ⟨1/2, (f : ℚ) + (1/100 + d), 1/2⟩ := by
    intro d
    unfold PlayerPhysics.position_with_axis_offset
    rw [hpos]
    simp only
    rw [add_assoc]
  have hct : ∀ c : ℚ, ⌊c⌋ = -1 → ⌊c + 9/5 - 1/10000⌋ = 1 →
      collides w ⟨1/2, (f : ℚ) + c, 1/2⟩ = true :=
    fun c h1 h2 => collides_floor_true w f c hfloor h1 h2
  rw [(by norm_num : (64 : Nat) = 63 + 1), bisectFind_succ]
  rw [if_neg (by with_unfolding_all decide)]
  simp only [hoff]
  rw [if_neg (not_not_intro (hct _
    (by with_unfolding_all decide) (by with_unfolding_all decide)))]
  rw [(by norm_num : (63 : Nat) = 62 + 1), bisectFind_succ]
  rw [if_neg (by with_unfolding_all decide)]
  simp only [hoff]
  rw [if_neg (not_not_intro (hct _
    (by with_unfolding_all decide) (by with_unfolding_all decide)))]
  rw [(by norm_num : (62 : Nat) = 61 + 1), bisectFind_succ]
  rw [if_neg (by with_unfolding_all decide)]
  simp only [hoff]
  rw [if_neg (not_not_intro (hct _
    (by with_unfolding_all decide) (by with_unfolding_all decide)))]
  rw [(by norm_num : (61 : Nat) = 60 + 1), bisectFind_succ]
  rw [if_neg (by with_unfolding_all decide)]
  simp only [hoff]
  rw [if_neg (not_not_intro (hct _
    (by with_unfolding_all decide) (by with_unfolding_all decide)))]
  rw [(by norm_num : (60 : Nat) = 59 + 1), bisectFind_succ]
  rw [if_neg (by with_unfolding_all decide)]
  simp only [hoff]
  rw [if_pos (by
    rw [collides_floor_false w f _ hair0 hair1
      (by with_unfolding_all decide) (by with_unfolding_all decide)]
    exact Bool.false_ne_true)]
  norm_num

/-- The Y-axis swept move for a downward displacement of at least a quarter
block, starting 0.01 above the floor: one clamped sub-step collides, the
refinement lands 7/3200 above the surface, and the contact is a Floor hit. -/
theorem moveY_floor_eval (w : World) (f : Int) (dy : ℚ) (p : PlayerPhysics)
    (hpos : p.position = ⟨1/2, (f : ℚ) + 1/100, 1/2⟩)
    (hdy : dy ≤ -(1/4))
    (hfloor : (BlockKind.from_id (w.block_at 0 (f - 1) 0)).is_solid = true)
    (hair0 : (BlockKind.from_id (w.block_at 0 f 0)).is_solid = false)
    (hair1 : (BlockKind.from_id (w.block_at 0 (f + 1) 0)).is_solid = false) :
    p.move_along_axis w .Y dy =
      ({ p with position := ⟨1/2, (f : ℚ) + 7/3200, 1/2⟩ },
        some VerticalHit.Floor) := by
  unfold PlayerPhysics.move_along_axis
  rw [if_neg (show ¬ |dy| < eps32 from by
    rw [abs_of_nonpos (by linarith)]
    rw [not_lt]
    rw [eps32]
    linarith)]
  simp only [moveLoop]
  rw [if_neg (not_not_intro (by
    rw [abs_of_nonpos (by linarith)]
    rw [eps32]
    linarith))]
  have hstepv : min COLLISION_STEP (max (-COLLISION_STEP) dy) = -(1/4) := by
    simp only [COLLISION_STEP]
    rw [max_eq_left (by linarith), min_eq_right (by norm_num)]
  rw [hstepv]
  have hoff : p.position_with_axis_offset .Y (-(1/4)) =
      ⟨1/2, (f : ℚ) + (1/100 + -(1/4)), 1/2⟩ := by
    unfold PlayerPhysics.position_with_axis_offset
    rw [hpos]
    simp only
    rw [add_assoc]
  rw [hoff]
  rw [if_pos (collides_floor_true w f _ hfloor
    (by with_unfolding_all decide) (by with_unfolding_all decide))]
  rw [bisectFind_floor_eval w f p hpos hfloor hair0 hair1]
  rw [if_pos (show dy < 0 from by linarith)]

/-- Helper: the full outcome of one walking tick onto the floor (used both
by the C8 theorem and by its counterexample). -/
theorem walk_tick_floor_contact_aux (S : ℚ → ℚ) (w : World) (f : Int)
    (vy dt s : ℚ) (g : Bool)
    (_hvy : vy < 0) (_hdt : 0 < dt)
    (hclamp : MAX_FALL_SPEED ≤ vy + GRAVITY * dt)
    (hstep : (vy + GRAVITY * dt) * dt ≤ -(1/4))
    (hfloor : (BlockKind.from_id (w.block_at 0 (f - 1) 0)).is_solid = true)
    (hair0 : (BlockKind.from_id (w.block_at 0 f 0)).is_solid = false)
    (hair1 : (BlockKind.from_id (w.block_at 0 (f + 1) 0)).is_solid = false) :
    PlayerPhysics.update
        ⟨⟨1/2, (f : ℚ) + 1/100, 1/2⟩, ⟨0, vy, 0⟩, .Walk, g⟩ S w dt
        ⟨⟨0, 0, 0⟩, false, false, false, s⟩ =
      ⟨⟨1/2, (f : ℚ) + 7/3200, 1/2⟩, ⟨0, 0, 0⟩, .Walk, true⟩ := by
  show PlayerPhysics.update_walk _ S w dt _ = _
  unfold PlayerPhysics.update_walk
  dsimp only
  rw [if_neg (show ¬ ((⟨0, 0, 0⟩ : Vec3q).length_squared > 0) from by
    norm_num [Vec3q.length_squared])]
  dsimp only
  rw [if_neg (show ¬ ((false && g) = true) from by simp)]
  rw [if_neg (not_lt.mpr hclamp)]
  unfold PlayerPhysics.apply_movement
  dsimp only
  simp only [zero_mul]
  rw [move_along_axis_zero]
  dsimp only
  rw [moveY_floor_eval w f ((vy + GRAVITY * dt) * dt) _ rfl hstep hfloor
    hair0 hair1]
  dsimp only
  rw [move_along_axis_zero]

/-- C8 (amended): a walking player with downward velocity, feet 0.01 above
a solid floor, after one gravity tick whose resulting sub-step is at least a
quarter block, comes to rest a small residual height — exactly 7/3200 ≈
0.0022, the outcome of the source's halving refinement, not exactly 0 —
above the floor surface (no tunnelling), with `on_ground` set and
`velocity.y` reset to 0. -/
theorem walk_tick_floor_contact (S : ℚ → ℚ) (w : World) (f : Int)
    (vy dt s : ℚ) (g : Bool)
    (hvy : vy < 0) (hdt : 0 < dt)
    (hclamp : MAX_FALL_SPEED ≤ vy + GRAVITY * dt)
    (hstep : (vy + GRAVITY * dt) * dt ≤ -(1/4))
    (hfloor : (BlockKind.from_id (w.block_at 0 (f - 1) 0)).is_solid = true)
    (hair0 : (BlockKind.from_id (w.block_at 0 f 0)).is_solid = false)
    (hair1 : (BlockKind.from_id (w.block_at 0 (f + 1) 0)).is_solid = false) :
    PlayerPhysics.update
        ⟨⟨1/2, (f : ℚ) + 1/100, 1/2⟩, ⟨0, vy, 0⟩, .Walk, g⟩ S w dt
        ⟨⟨0, 0, 0⟩, false, false, false, s⟩ =
      ⟨⟨1/2, (f : ℚ) + 7/3200, 1/2⟩, ⟨0, 0, 0⟩, .Walk, true⟩ :=
  walk_tick_floor_contact_aux S w f vy dt s g hvy hdt hclamp hstep hfloor
    hair0 hair1

/-- Counterexample to C8 as stated: with feet 0.01 above the stone floor
(surface at height 0) and downward velocity, one walking tick leaves the
player at height 7/3200, strictly above the floor surface — not exactly on
it — while on_ground is set and vertical velocity is zeroed. -/
theorem walk_tick_not_exactly_on_floor :
    (PlayerPhysics.update
        ⟨⟨1/2, 1/100, 1/2⟩, ⟨0, -11/2, 0⟩, .Walk, false⟩ (fun q => q)
        stoneFloorWorld (1/20) ⟨⟨0, 0, 0⟩, false, false, false, 0⟩).position.y =
      7/3200 ∧
    (7/3200 : ℚ) ≠ 0 ∧
    (PlayerPhysics.update
        ⟨⟨1/2, 1/100, 1/2⟩, ⟨0, -11/2, 0⟩, .Walk, false⟩ (fun q => q)
        stoneFloorWorld (1/20) ⟨⟨0, 0, 0⟩, false, false, false, 0⟩).on_ground =
      true ∧
    (PlayerPhysics.update
        ⟨⟨1/2, 1/100, 1/2⟩, ⟨0, -11/2, 0⟩, .Walk, false⟩ (fun q => q)
        stoneFloorWorld (1/20) ⟨⟨0, 0, 0⟩, false, false, false, 0⟩).velocity.y =
      0 := by
  have h := walk_tick_floor_contact_aux (fun q => q) stoneFloorWorld 0 (-11/2)
    (1/20) 0 false (by norm_num) (by norm_num)
    (by norm_num [MAX_FALL_SPEED, GRAVITY]) (by norm_num [GRAVITY])
    (by with_unfolding_all decide)
    (by with_unfolding_all decide)
    (by with_unfolding_all decide)
  simp only [Int.cast_zero, zero_add] at h
  rw [h]
  norm_num

/-- Witness for `walk_tick_floor_contact` over the stone floor world. -/
theorem walk_tick_floor_contact_witness :
    (0 : ℚ) < 1/20 ∧
    PlayerPhysics.update
        ⟨⟨1/2, ((0 : Int) : ℚ) + 1/100, 1/2⟩, ⟨0, -11/2, 0⟩, .Walk, false⟩
        (fun q => q) stoneFloorWorld (1/20) ⟨⟨0, 0, 0⟩, false, false, false, 0⟩ =
      ⟨⟨1/2, ((0 : Int) : ℚ) + 7/3200, 1/2⟩, ⟨0, 0, 0⟩, .Walk, true⟩ :=
  ⟨by norm_num,
   walk_tick_floor_contact (fun q => q) stoneFloorWorld 0 (-11/2) (1/20) 0 false
     (by norm_num)
     (by norm_num)
     (by norm_num [MAX_FALL_SPEED, GRAVITY])
     (by norm_num [GRAVITY])
     (by with_unfolding_all decide)
     (by with_unfolding_all decide)
     (by with_unfolding_all decide)⟩
